import Mathlib

/-!
Shallow embedding of the game-asset importer (`gameimporterre.py`) and proofs
about its decode / assemble / bind pipeline.

Conventions of the embedding:
* Python byte strings are `List Nat` (each element a byte value 0-255).
* Python floats are modelled as exact rationals `ℚ`; IEEE-754 binary32
  payloads read from buffers are decoded exactly (infinities and NaNs, which
  have no rational value, are mapped to 0 — no claim touches such payloads).
* Python exceptions are modelled with `Except` / `Option`: `none` or
  `.error` marks an exception escaping the modelled code.
* Bone and material names are `List Char` (Python `str`).
-/

namespace SROImport

/-- Error classes raised by the decoders: `truncatedInput` models
`struct.error` (a `struct.unpack` on a short read), `invalidSignature`
models the `ValueError` raised on a signature mismatch. -/
inductive DecodeErr where
  | truncatedInput
  | invalidSignature
deriving DecidableEq

deriving instance DecidableEq for Except

/-- Byte characters of a string literal, for writing signatures and names. -/
def strBytes (s : String) : List Nat := s.data.map Char.toNat

/-- One raw per-vertex skin record as decoded from a BMS file: the four raw
bone indices (`struct.unpack('4B', ...)`) and the four normalized weights. -/
structure SkinRecord where
  indices : List Nat
  weights : List ℚ
deriving DecidableEq

/-- The dictionary returned by `import_bms` (name, vertices, faces, uvs,
skin_data, material_name).  Vertices are already converted to the Blender
coordinate system, exactly as in the source. -/
structure MeshData where
  name : List Nat
  vertices : List (ℚ × ℚ × ℚ)
  faces : List (Nat × Nat × Nat)
  uvs : List (ℚ × ℚ)
  skins : List SkinRecord
  materialName : List Nat
deriving DecidableEq

/-- Weight normalization from `import_bms` (lines 660-664):
`total = sum(weights_raw)`; if `total > 0` each weight becomes `raw / total`,
otherwise the result is `[0.0] * 4`.  Note that the divisor is the sum of all
four raw bytes, whatever the accompanying bone indices are. -/
def normalize_weights (raw : List Nat) : List ℚ :=
  if 0 < raw.sum then raw.map (fun (w : Nat) => (w : ℚ) / (raw.sum : ℚ))
  else [0, 0, 0, 0]

/-- Decidable check that `pat` occurs as a contiguous substring of `s`,
modelling Python `pat in s` on strings. -/
def hasSubstr (pat s : List Char) : Bool :=
  match s with
  | [] => pat.isEmpty
  | _ :: tail => pat.isPrefixOf s || hasSubstr pat tail

/-- Python `s in name or t in name or ...` for a list of patterns. -/
def hasAnySubstr (pats : List (List Char)) (name : List Char) : Bool :=
  pats.any (fun p => hasSubstr p name)

/-- Indices of bones whose name passes `f`, in armature order, modelling the
comprehensions `[i for i, name in enumerate(bone_names) if ...]`
(lines 1013-1017 of `bind_to_skeleton`). -/
def boneIndicesWhere (bones : List (List Char)) (f : List Char → Bool) : List Nat :=
  (bones.enum.filter (fun p => f p.2)).map Prod.fst

/-- Bones classified as spine-like: name contains Spine, Neck or Head. -/
def spine_bones (bones : List (List Char)) : List Nat :=
  boneIndicesWhere bones (hasAnySubstr [("Spine").data, ("Neck").data, ("Head").data])

/-- Bones classified as arm-like: name contains Arm, Hand, Finger or Clavicle. -/
def arm_bones (bones : List (List Char)) : List Nat :=
  boneIndicesWhere bones
    (hasAnySubstr [("Arm").data, ("Hand").data, ("Finger").data, ("Clavicle").data])

/-- Bones classified as leg-like: name contains Thigh, Calf, Foot, Toe or
HorseLink. -/
def leg_bones (bones : List (List Char)) : List Nat :=
  boneIndicesWhere bones
    (hasAnySubstr [("Thigh").data, ("Calf").data, ("Foot").data, ("Toe").data,
      ("HorseLink").data])

/-- Bones classified as tail-like (computed at line 1016 but never used by
the remap). -/
def tail_bones (bones : List (List Char)) : List Nat :=
  boneIndicesWhere bones (hasAnySubstr [("Tail").data, ("Ponytail").data])

/-- Generic numbered bones: name starts with Bone (line 1017). -/
def other_bones (bones : List (List Char)) : List Nat :=
  boneIndicesWhere bones (fun n => ("Bone").data.isPrefixOf n)

/-- Python `a % m` on integers for a positive modulus `m` (the result is
always in `[0, m)`, matching `Int.emod`), truncated back to `Nat` for list
indexing. -/
def pymod (a : Int) (m : Nat) : Nat := (a % (m : Int)).toNat

/-- The out-of-range remap of `bind_to_skeleton` (lines 1097-1118), reached
for a slot whose bone index is `≥ len(bones)` (and not 255).  Returns `none`
exactly when the Python code raises an uncaught `ZeroDivisionError`:
* `bone_idx ≥ 77`: `offset = bone_idx - 77`; the spine / arm / leg / other
  guard chain; the final fallback `(bone_idx - 77) % (len(bones) - 1) + 1`
  divides by zero when the armature has exactly one bone.  With zero bones
  Python computes `x % (-1) = 0` and maps to index 1.
* `bone_idx < 77`: `bone_idx % len(bones)`, dividing by zero when the
  armature has no bones. -/
def smart_bone_remap (bones : List (List Char)) (bone_idx : Nat) : Option Nat :=
  let spine := spine_bones bones
  let arm := arm_bones bones
  let leg := leg_bones bones
  let other := other_bones bones
  if 77 ≤ bone_idx then
    let offset := bone_idx - 77
    if spine ≠ [] ∧ offset < spine.length then
      some (spine.getD (offset % spine.length) 0)
    else if arm ≠ [] ∧ offset < arm.length * 2 then
      some (arm.getD (pymod ((offset : Int) - spine.length) arm.length) 0)
    else if leg ≠ [] ∧ offset < leg.length * 2 then
      some (leg.getD (pymod ((offset : Int) - spine.length - arm.length) leg.length) 0)
    else if other ≠ [] then
      some (other.getD (offset % other.length) 0)
    else
      if bones.length = 0 then some 1
      else if bones.length = 1 then none
      else some ((bone_idx - 77) % (bones.length - 1) + 1)
  else
    if bones.length = 0 then none else some (bone_idx % bones.length)

/-- Running statistics and accumulated vertex-group additions of one
`bind_to_skeleton` call: `total` is `total_weights`, `outOfRange` is
`out_of_range_count`, `skippedEmpty` is `skipped_empty`, and `contribs`
records every `vg.add([v_idx], weight, 'ADD')` as
(armature bone index, global vertex index, weight). -/
structure BindState where
  total : Nat
  outOfRange : Nat
  skippedEmpty : Nat
  contribs : List (Nat × Nat × ℚ)
deriving DecidableEq

/-- Processing of one of the four skin slots of one vertex
(lines 1069-1132): skip empty (255) slots, skip weights `≤ 0.001`, then
direct mapping for in-range indices and the smart remap otherwise.  `none`
models the uncaught `ZeroDivisionError` of the remap; a remapped index that
is out of range would raise `IndexError`, which the source catches
(line 1130), recording no contribution. -/
def process_slot (bones : List (List Char)) (vIdx : Nat) (st : BindState)
    (slot : Nat × ℚ) : Option BindState :=
  let idx := slot.1
  let w := slot.2
  if idx = 255 then
    some { st with skippedEmpty := if 0 < w then st.skippedEmpty + 1 else st.skippedEmpty }
  else if w ≤ 1 / 1000 then
    some st
  else
    let st1 := { st with total := st.total + 1 }
    if idx < bones.length then
      some { st1 with contribs := st1.contribs ++ [(idx, vIdx, w)] }
    else
      let st2 := { st1 with outOfRange := st1.outOfRange + 1 }
      match smart_bone_remap bones idx with
      | none => none
      | some m =>
        if m < bones.length then
          some { st2 with contribs := st2.contribs ++ [(m, vIdx, w)] }
        else
          some st2

/-- Fold `process_slot` over a list of slots, stopping at an uncaught
exception. -/
def process_slots (bones : List (List Char)) (vIdx : Nat) (st : BindState) :
    List (Nat × ℚ) → Option BindState
  | [] => some st
  | slot :: rest =>
    match process_slot bones vIdx st slot with
    | none => none
    | some st1 => process_slots bones vIdx st1 rest

/-- The four slots of a skin record, pairing `skin['indices'][i]` with
`skin['weights'][i]` for `i in range(4)` (both lists have length 4 for every
decoded record, so the zip enumerates exactly those four pairs). -/
def slots_of (s : SkinRecord) : List (Nat × ℚ) := s.indices.zip s.weights

/-- Process the skin records of one mesh, `v_idx` enumerating the vertices
relative to `vOff` (the running `v_offset`). -/
def process_skins (bones : List (List Char)) (vOff : Nat) :
    List SkinRecord → Nat → BindState → Option BindState
  | [], _, st => some st
  | s :: rest, vIdx, st =>
    match process_slots bones (vOff + vIdx) st (slots_of s) with
    | none => none
    | some st1 => process_skins bones vOff rest (vIdx + 1) st1

/-- The weight-application loop of `bind_to_skeleton` (lines 1050-1134):
meshes without skin data only advance `v_offset`. -/
def bind_loop (bones : List (List Char)) :
    List MeshData → Nat → BindState → Option BindState
  | [], _, st => some st
  | d :: rest, vOff, st =>
    if d.skins = [] then bind_loop bones rest (vOff + d.vertices.length) st
    else
      match process_skins bones vOff d.skins 0 st with
      | none => none
      | some st1 => bind_loop bones rest (vOff + d.vertices.length) st1

/-- The pure content of one `bind_to_skeleton(mesh_obj, armature_obj,
mesh_data_list)` call over an armature whose bones are `bones`:
`none` models an uncaught exception aborting the whole import. -/
def bind_to_skeleton (meshes : List MeshData) (bones : List (List Char)) :
    Option BindState :=
  bind_loop bones meshes 0 ⟨0, 0, 0, []⟩

/-- The `out_of_range_ratio` of lines 1141:
`(out_of_range_count / max(1, total_weights)) if total_weights > 0 else 0.0`. -/
def out_of_range_fraction (st : BindState) : ℚ :=
  if 0 < st.total then (st.outOfRange : ℚ) / (max 1 st.total : ℚ) else 0

/-- Which mechanism produced the final vertex weights of a bound mesh. -/
inductive WeightSource where
  | indexBased
  | autoWeights
  | reappliedSkin
  | nearestBone
deriving DecidableEq

/-- The fallback decision structure of lines 1158-1301.  When the
out-of-range ratio reaches 0.20 the code clears the vertex groups and runs
Blender's `ARMATURE_AUTO` parenting (automatic weights); `autoOk` abstracts
whether that host-side operator produced vertex groups.  Only when it did
not, manual groups are created: stored combined skin data is re-applied if
available (`hasCombined`), otherwise each vertex is given weight 1.0 on its
nearest bone.  Below the threshold the index-based groups are kept. -/
def weight_source (st : BindState) (autoOk hasCombined : Bool) : WeightSource :=
  if 1 / 5 ≤ out_of_range_fraction st then
    if autoOk then .autoWeights
    else if hasCombined then .reappliedSkin
    else .nearestBone
  else .indexBased

/-- Squared distance between two points.  The source compares
`(vert_pos - bone_pos).length` values (Euclidean norms); comparisons of
norms agree with comparisons of squared norms, which stay in `ℚ`. -/
def dist2 (a b : ℚ × ℚ × ℚ) : ℚ :=
  (a.1 - b.1) ^ 2 + (a.2.1 - b.2.1) ^ 2 + (a.2.2 - b.2.2) ^ 2

/-- The nearest-bone search of lines 1286-1294: iterate over the bones
keeping the first strictly closer one (`dist < min_dist` with
`min_dist = inf` initially, modelled by the `none` accumulator). -/
def nearest_loop (v : ℚ × ℚ × ℚ) :
    List (ℚ × ℚ × ℚ) → Nat → Option (ℚ × Nat) → Option (ℚ × Nat)
  | [], _, acc => acc
  | h :: rest, i, acc =>
    let d := dist2 h v
    match acc with
    | none => nearest_loop v rest (i + 1) (some (d, i))
    | some (m, c) =>
      if d < m then nearest_loop v rest (i + 1) (some (d, i))
      else nearest_loop v rest (i + 1) (some (m, c))

/-- Index of the nearest bone head to `v`, `none` when there are no bones. -/
def nearest_bone_index (heads : List (ℚ × ℚ × ℚ)) (v : ℚ × ℚ × ℚ) : Option Nat :=
  (nearest_loop v heads 0 none).map Prod.snd

/-- The nearest-bone assignment of lines 1284-1299: every vertex gets one
`vg.add([v_idx], 1.0, 'ADD')` on its closest bone (when one exists),
recorded as (bone index, vertex index, weight). -/
def nearest_assign (verts : List (ℚ × ℚ × ℚ)) (heads : List (ℚ × ℚ × ℚ)) :
    List (Nat × Nat × ℚ) :=
  verts.enum.filterMap (fun p =>
    match nearest_bone_index heads p.2 with
    | none => none
    | some c => some (c, p.1, (1 : ℚ)))

end SROImport

namespace SROImport

/-- The fixed SRO→Blender basis-change matrix of lines 30-35
(`SRO_TO_BLENDER_POS_MATRIX`): X→X, Y→-Z, Z→Y, with an identity affine row. -/
def SRO_TO_BLENDER_POS_MATRIX : Matrix (Fin 4) (Fin 4) ℚ :=
  !![1, 0, 0, 0;
     0, 0, -1, 0;
     0, 1, 0, 0;
     0, 0, 0, 1]

/-- The 3×3 restriction `C3 = SRO_TO_BLENDER_POS_MATRIX.to_3x3()` (line 36):
the upper-left 3×3 block (the helper lemma `C3mat_is_to_3x3` checks this
against `SRO_TO_BLENDER_POS_MATRIX`). -/
def C3mat : Matrix (Fin 3) (Fin 3) ℚ :=
  !![1, 0, 0;
     0, 0, -1;
     0, 1, 0]

/-- Closed form of `C3.inverted()` (line 46); the C7 theorem proves that it
is a two-sided inverse of `C3mat`. -/
def C3inv : Matrix (Fin 3) (Fin 3) ℚ :=
  !![1, 0, 0;
     0, 0, 1;
     0, -1, 0]

/-- Application of a 4×4 mathutils matrix to a 3-vector (`M @ v`): the
vector is extended with `w = 1`, multiplied, and truncated back, so each
component also picks up the matrix's translation column. -/
def mat4_apply_vec3 (M : Matrix (Fin 4) (Fin 4) ℚ) (v : ℚ × ℚ × ℚ) : ℚ × ℚ × ℚ :=
  (M 0 0 * v.1 + M 0 1 * v.2.1 + M 0 2 * v.2.2 + M 0 3,
   M 1 0 * v.1 + M 1 1 * v.2.1 + M 1 2 * v.2.2 + M 1 3,
   M 2 0 * v.1 + M 2 1 * v.2.1 + M 2 2 * v.2.2 + M 2 3)

/-- Application of a 3×3 mathutils matrix to a 3-vector. -/
def mat3_apply_vec3 (M : Matrix (Fin 3) (Fin 3) ℚ) (v : ℚ × ℚ × ℚ) : ℚ × ℚ × ℚ :=
  (M 0 0 * v.1 + M 0 1 * v.2.1 + M 0 2 * v.2.2,
   M 1 0 * v.1 + M 1 1 * v.2.1 + M 1 2 * v.2.2,
   M 2 0 * v.1 + M 2 1 * v.2.1 + M 2 2 * v.2.2)

/-- The position conversion `convert_vec_sro_to_blender` (lines 38-40). -/
def convert_vec_sro_to_blender (v : ℚ × ℚ × ℚ) : ℚ × ℚ × ℚ :=
  mat4_apply_vec3 SRO_TO_BLENDER_POS_MATRIX v

/-- Quaternions with components in a commutative ring, in mathutils
(w, x, y, z) order. -/
structure Quat (α : Type) where
  w : α
  x : α
  y : α
  z : α
deriving DecidableEq

/-- Hamilton product of quaternions. -/
def quat_mul {α : Type} [CommRing α] (a b : Quat α) : Quat α :=
  ⟨a.w * b.w - a.x * b.x - a.y * b.y - a.z * b.z,
   a.w * b.x + a.x * b.w + a.y * b.z - a.z * b.y,
   a.w * b.y - a.x * b.z + a.y * b.w + a.z * b.x,
   a.w * b.z + a.x * b.y - a.y * b.x + a.z * b.w⟩

/-- Quaternion conjugate (the inverse of a unit quaternion). -/
def quat_conj {α : Type} [CommRing α] (a : Quat α) : Quat α :=
  ⟨a.w, -a.x, -a.y, -a.z⟩

/-- The rotation matrix of a unit quaternion, as computed by mathutils
`Quaternion.to_matrix()` (the standard factor-2 formula, no
normalization). -/
def quat_to_matrix (q : Quat ℚ) : Matrix (Fin 3) (Fin 3) ℚ :=
  !![1 - 2 * (q.y ^ 2 + q.z ^ 2), 2 * (q.x * q.y - q.w * q.z), 2 * (q.x * q.z + q.w * q.y);
     2 * (q.x * q.y + q.w * q.z), 1 - 2 * (q.x ^ 2 + q.z ^ 2), 2 * (q.y * q.z - q.w * q.x);
     2 * (q.x * q.z - q.w * q.y), 2 * (q.y * q.z + q.w * q.x), 1 - 2 * (q.x ^ 2 + q.y ^ 2)]

/-- The conjugated matrix `m_conv = C3 @ q.to_matrix() @ C3.inverted()` of
`convert_quat_sro_to_blender` (lines 42-47); the source then converts
`m_conv` back to a normalized quaternion through mathutils. -/
def convert_quat_matrix (q : Quat ℚ) : Matrix (Fin 3) (Fin 3) ℚ :=
  C3mat * quat_to_matrix q * C3inv

/-- Sequential cursor over a byte buffer, modelling the opened binary file. -/
structure ByteReader where
  buf : List Nat
  pos : Nat
deriving DecidableEq

/-- Python `file.read(n)`: returns up to `n` bytes (fewer at end of buffer)
and advances the cursor by the number of bytes actually read.  Never an
error. -/
def read_at_most (n : Nat) (r : ByteReader) : List Nat × ByteReader :=
  let bytes := (r.buf.drop r.pos).take n
  (bytes, ⟨r.buf, r.pos + bytes.length⟩)

/-- A read followed by `struct.unpack`, which raises (`truncatedInput`)
unless exactly `n` bytes were available. -/
def read_exact (n : Nat) (r : ByteReader) : Except DecodeErr (List Nat × ByteReader) :=
  let p := read_at_most n r
  if p.1.length = n then .ok p else .error .truncatedInput

/-- Python `file.seek(off)`: sets the cursor absolutely, without any bounds
check. -/
def seek (off : Nat) (r : ByteReader) : ByteReader := ⟨r.buf, off⟩

/-- Little-endian value of a byte list. -/
def leNat : List Nat → Nat
  | [] => 0
  | b :: rest => b + 256 * leNat rest

/-- Read a `struct.unpack('I', file.read(4))` little-endian u32. -/
def read_u32 (r : ByteReader) : Except DecodeErr (Nat × ByteReader) :=
  match read_exact 4 r with
  | .error e => .error e
  | .ok p => .ok (leNat p.1, p.2)

/-- Exact value of an IEEE-754 binary32 little-endian byte list.  Finite
values are decoded exactly; infinities and NaNs (exponent 255), which have
no rational value, are mapped to 0 (no claim concerns such payloads). -/
def decode_f32 (bytes : List Nat) : ℚ :=
  let bits : Nat := leNat bytes
  let sign : Nat := bits / 2 ^ 31
  let expo : Nat := bits / 2 ^ 23 % 256
  let frac : Nat := bits % 2 ^ 23
  let mag : ℚ :=
    if expo = 255 then 0
    else if expo = 0 then
      if frac = 0 then 0 else (frac : ℚ) / 2 ^ 149
    else ((2 ^ 23 + frac : Nat) : ℚ) * 2 ^ expo / 2 ^ 150
  if sign = 1 then -mag else mag

/-- The per-vertex loop of `import_bms` (lines 643-670): position (three
floats, converted to Blender coordinates), a normal read and discarded, a UV
pair with the V channel flipped, a discarded float, four index bytes and
four weight bytes (normalized), then flag-dependent extra blocks. -/
def read_vertices (flag : Nat) :
    Nat → ByteReader →
    Except DecodeErr (List (ℚ × ℚ × ℚ) × List (ℚ × ℚ) × List SkinRecord × ByteReader)
  | 0, r => .ok ([], [], [], r)
  | n + 1, r =>
    match read_exact 12 r with
    | .error e => .error e
    | .ok (posBytes, r1) =>
      let p := convert_vec_sro_to_blender
        (decode_f32 (posBytes.take 4),
         decode_f32 ((posBytes.drop 4).take 4),
         decode_f32 (posBytes.drop 8))
      let r2 := (read_at_most 12 r1).2
      match read_exact 8 r2 with
      | .error e => .error e
      | .ok (uvBytes, r3) =>
        let uv := (decode_f32 (uvBytes.take 4), 1 - decode_f32 (uvBytes.drop 4))
        let r4 := (read_at_most 4 r3).2
        match read_exact 4 r4 with
        | .error e => .error e
        | .ok (idxBytes, r5) =>
          match read_exact 4 r5 with
          | .error e => .error e
          | .ok (wBytes, r6) =>
            let skin : SkinRecord := ⟨idxBytes, normalize_weights wBytes⟩
            let r7 := if flag &&& 1024 ≠ 0 then (read_at_most 8 r6).2 else r6
            let r8 := if flag &&& 2048 ≠ 0 then (read_at_most 32 r7).2 else r7
            match read_vertices flag n r8 with
            | .error e => .error e
            | .ok (vs, uvs, sks, r9) => .ok (p :: vs, uv :: uvs, skin :: sks, r9)

/-- The face loop of `import_bms` (lines 676-679): each face is three
little-endian u16 vertex indices, stored exactly as parsed. -/
def read_faces :
    Nat → ByteReader → Except DecodeErr (List (Nat × Nat × Nat) × ByteReader)
  | 0, r => .ok ([], r)
  | n + 1, r =>
    match read_exact 6 r with
    | .error e => .error e
    | .ok (bs, r1) =>
      let f := (leNat (bs.take 2), leNat ((bs.drop 2).take 2), leNat (bs.drop 4))
      match read_faces n r1 with
      | .error e => .error e
      | .ok (fs, r2) => .ok (f :: fs, r2)

/-- The BMS mesh decoder `import_bms` (lines 604-694).  The 4-byte
signature must equal JMXV (a different byte sequence raises `ValueError`,
or `UnicodeDecodeError` for non-UTF-8 bytes — fatal either way, modelled as
`invalidSignature`).  Header reads use `struct.unpack` (truncation is
fatal); bare `file.read` skips are not checked.  The vertex and face blocks
are reached by absolute seeks taken from the header. -/
def import_bms (buf : List Nat) : Except DecodeErr MeshData :=
  let r0 : ByteReader := ⟨buf, 0⟩
  let sigP := read_at_most 4 r0
  if sigP.1 ≠ strBytes ("JMXV") then .error .invalidSignature
  else
    let r1 := (read_at_most 8 sigP.2).2
    match read_exact 48 r1 with
    | .error e => .error e
    | .ok (header, r2) =>
      let vertex_offset := leNat (header.take 4)
      let face_offset := leNat ((header.drop 8).take 4)
      let r3 := (read_at_most 4 r2).2
      match read_u32 r3 with
      | .error e => .error e
      | .ok (vertex_flag, r4) =>
        let r5 := (read_at_most 4 r4).2
        match read_u32 r5 with
        | .error e => .error e
        | .ok (name_len, r6) =>
          let nameP := read_at_most name_len r6
          let name := if 0 < name_len then nameP.1 else strBytes ("Mesh")
          match read_u32 nameP.2 with
          | .error e => .error e
          | .ok (mat_len, r7) =>
            let matP := read_at_most mat_len r7
            let mat := if 0 < mat_len then matP.1 else []
            match read_u32 (seek vertex_offset matP.2) with
            | .error e => .error e
            | .ok (vert_count, r8) =>
              match read_vertices vertex_flag vert_count r8 with
              | .error e => .error e
              | .ok (verts, uvs, skins, r9) =>
                match read_u32 (seek face_offset r9) with
                | .error e => .error e
                | .ok (face_count, r10) =>
                  match read_faces face_count r10 with
                  | .error e => .error e
                  | .ok (faces, _) =>
                    .ok ⟨name, verts, faces, uvs, skins, mat⟩

end SROImport

namespace SROImport

/-- One entry of `bones_data` as consumed by `create_armature`: name, parent
name, and the stable index written by `b['index'] = idx` (lines 274-275).
Rotation and translation are not needed for the grouping facts proved
here. -/
structure BoneRec where
  name : List Char
  parent : List Char
  index : Nat
deriving DecidableEq

/-- The enumeration `for idx, b in enumerate(bones_data): b['index'] = idx`
(lines 274-275), overwriting any incoming index. -/
def assign_indices (l : List BoneRec) : List BoneRec :=
  l.enum.map (fun p => { p.2 with index := p.1 })

/-- Children lookup `children_map_tmp.get(n, [])`: the map groups bones by
their parent string (`bone.get('parent') or ""`), preserving list order, so
the lookup is exactly the bones whose parent field equals `n`. -/
def children_of (bones : List BoneRec) (n : List Char) : List BoneRec :=
  bones.filter (fun b => b.parent = n)

/-- Dict lookup `name_to_bone.get(n)`; a later duplicate name overwrites an
earlier one, hence the search from the end. -/
def name_to_bone (bones : List BoneRec) (n : List Char) : Option BoneRec :=
  bones.reverse.find? (fun b => b.name = n)

/-- Python `n in name_to_bone`. -/
def has_bone_named (bones : List BoneRec) (n : List Char) : Bool :=
  bones.any (fun b => b.name = n)

/-- Top-level roots (lines 291-295): bones with an empty parent or a parent
name not present in the list. -/
def toplvl_roots (bones : List BoneRec) : List (List Char) :=
  (bones.filter (fun b => b.parent = [] || !(has_bone_named bones b.parent))).map
    (fun b => b.name)

/-- The single-child-chain descent `descend_to_first_branch` (lines
298-304): walk down while the current bone has exactly one child.  The
source loops forever on a cyclic chain; on acyclic input a chain is shorter
than the bone count, so the fuel `bones.length + 1` used below never runs
out. -/
def descend_to_first_branch (bones : List BoneRec) :
    Nat → List Char → List Char
  | 0, cur => cur
  | fuel + 1, cur =>
    match children_of bones cur with
    | [c] => descend_to_first_branch bones fuel c.name
    | _ => cur

/-- Fuel sufficient for `descend_to_first_branch` on acyclic input. -/
def descend_fuel (bones : List BoneRec) : Nat := bones.length + 1

/-- The split-root selection of lines 306-330: multiple top-level roots
split by themselves; a single root is descended to the first branch point
and, when `split_root_children` is set and that bone has children, split by
those children; an empty selection falls back to the top-level roots. -/
def split_roots_of (bones : List BoneRec) (pref : Bool) : List (List Char) :=
  let toplvl := toplvl_roots bones
  let sr : List (List Char) :=
    if 1 < toplvl.length then toplvl
    else
      match toplvl.head? with
      | none => []
      | some r =>
        let t := descend_to_first_branch bones (descend_fuel bones) r
        if pref then
          let bc := children_of bones t
          if bc ≠ [] then bc.map (fun b => b.name) else []
        else []
  if sr = [] then toplvl else sr

/-- One iteration step of `collect_subtree` (lines 336-357): pop the last
stack entry, skip seen names, append the named bone to the selection and
push its children's names. -/
def collect_go (bones : List BoneRec) :
    Nat → List (List Char) → List (List Char) → List BoneRec → List BoneRec
  | 0, _, _, sel => sel
  | fuel + 1, stack, seen, sel =>
    match stack.getLast? with
    | none => sel
    | some cur =>
      let stack1 := stack.dropLast
      if cur ∈ seen then collect_go bones fuel stack1 seen sel
      else
        let seen1 := cur :: seen
        match name_to_bone bones cur with
        | none => collect_go bones fuel stack1 seen1 sel
        | some b =>
          collect_go bones fuel (stack1 ++ (children_of bones cur).map (fun c => c.name))
            seen1 (sel ++ [b])

/-- Fuel sufficient for `collect_go`: every name is pushed at most once per
bone relation, so the iteration count is bounded well below this square. -/
def collect_fuel (bones : List BoneRec) : Nat :=
  (bones.length + 1) * (bones.length + 1) + 1

/-- The depth-first subtree collection `collect_subtree(root_name)`. -/
def collect_subtree (bones : List BoneRec) (root : List Char) : List BoneRec :=
  collect_go bones (collect_fuel bones) [root] [] []

/-- Stable insertion of a bone into an index-sorted list. -/
def insert_by_index (x : BoneRec) : List BoneRec → List BoneRec
  | [] => [x]
  | y :: ys => if x.index ≤ y.index then x :: y :: ys else y :: insert_by_index x ys

/-- The stable sort `ordered.sort(key=lambda b: b.get('index', 0))` applied
by `_create_single_armature` (lines 506-507). -/
def sort_by_index (l : List BoneRec) : List BoneRec :=
  l.foldr insert_by_index []

/-- The splitting path of `create_armature` (lines 277-372): each split
root's non-empty subtree becomes one armature (in index order), and the
full skeleton is additionally assembled as a combined armature, returned
first — the binder's target. -/
def create_armature_groups (bones : List BoneRec) (pref : Bool) :
    List (List BoneRec) :=
  let ib := assign_indices bones
  let parts := (split_roots_of ib pref).filterMap (fun r =>
    let s := collect_subtree ib r
    if s = [] then none else some (sort_by_index s))
  sort_by_index ib :: parts

/-- The mesh-accumulation state of `create_combined_mesh` (lines 724-728):
`all_verts`, `all_faces`, `all_uvs`, `all_skins` and the running
`v_offset`. -/
structure CombState where
  verts : List (ℚ × ℚ × ℚ)
  faces : List (Nat × Nat × Nat)
  uvs : List (ℚ × ℚ)
  skins : List SkinRecord
  vOff : Nat
deriving DecidableEq

/-- Shift the three indices of a face by the running vertex offset
(`tuple(i + v_offset for i in face)`, line 738). -/
def shift_face (off : Nat) (f : Nat × Nat × Nat) : Nat × Nat × Nat :=
  (f.1 + off, f.2.1 + off, f.2.2 + off)

/-- One iteration of the combining loop (lines 730-740).  The `if
data.get('uvs')` / `if data.get('skin_data')` guards skip empty lists,
which coincides with appending them. -/
def combine_step (st : CombState) (d : MeshData) : CombState :=
  { verts := st.verts ++ d.vertices
    faces := st.faces ++ d.faces.map (shift_face st.vOff)
    uvs := if d.uvs = [] then st.uvs else st.uvs ++ d.uvs
    skins := if d.skins = [] then st.skins else st.skins ++ d.skins
    vOff := st.vOff + d.vertices.length }

/-- The pure content of `create_combined_mesh` (lines 722-780): concatenated
vertex/uv/skin sequences and offset-shifted faces.  The combined object
carries no `material_name` custom property. -/
def create_combined_mesh (l : List MeshData) (name : List Nat) : MeshData :=
  let st := l.foldl combine_step ⟨[], [], [], [], 0⟩
  ⟨name, st.verts, st.faces, st.uvs, st.skins, []⟩

/-- Sum of the vertex counts of the meshes before position `i`: the value
of `v_offset` when mesh `i` is appended. -/
def v_offset_before (l : List MeshData) (i : Nat) : Nat :=
  ((l.take i).map (fun d => d.vertices.length)).sum

/-- The shifted face lists of all meshes in order, starting from offset
`off`. -/
def shifted_faces (off : Nat) : List MeshData → List (Nat × Nat × Nat)
  | [] => []
  | d :: rest => d.faces.map (shift_face off) ++ shifted_faces (off + d.vertices.length) rest

/-- The error-catching wrapper of `import_bsk` (lines 204-268): the 12-byte
signature must start with JMXVBSK, otherwise the method reports an error
and returns `None`; every other exception inside it is caught the same way
(line 265), so a skeleton failure never escapes to `execute`.  The armature
construction itself is host-side and not needed by the claims, so a
successful run is modelled as `some ()`. -/
def import_bsk_outcome (buf : List Nat) : Option Unit :=
  if (strBytes ("JMXVBSK")).isPrefixOf (buf.take 12) then some () else none

/-- The signature check of `import_bmt` (lines 1335-1343): the 12 signature
bytes must equal JMXVBMT 0102 exactly; both mismatch branches raise
`ValueError`, which `import_bmt` does not catch.  The material records that
follow are parsed only after this check. -/
def import_bmt_sig (buf : List Nat) : Except DecodeErr Unit :=
  if buf.take 12 = strBytes ("JMXVBMT 0102") then .ok () else .error .invalidSignature

/-- Outcome of one `execute` run: whether a skeleton was created, which
meshes were decoded, whether material decoding succeeded, and whether the
run ended in the top-level `except` handler (`return CANCELLED`,
lines 199-202). -/
structure RunResult where
  skeletonImported : Bool
  meshesDecoded : List MeshData
  materialsOk : Bool
  cancelled : Bool
deriving DecidableEq

/-- The STEP 2 mesh loop of `execute` (lines 102-108): meshes are decoded
in order and an exception from `import_bms` propagates, ending the loop
(and the whole run) with the meshes decoded so far. -/
def decode_bms_files : List (List Nat) → List MeshData × Option DecodeErr
  | [] => ([], none)
  | b :: rest =>
    match import_bms b with
    | .error e => ([], some e)
    | .ok md =>
      let p := decode_bms_files rest
      (md :: p.1, p.2)

/-- The orchestration of `execute` (lines 78-202) at container granularity,
with the import/bind/apply settings at their defaults and every supplied
file existing.  STEP 1 (skeleton) catches its own errors; an exception in
STEP 2 (meshes) or STEP 3 (materials) falls through to the top-level
handler, which cancels the run — skipping every later step.  Mesh-object
creation, binding and fitting are host-side and elided. -/
def execute_import (bskFile : Option (List Nat)) (bmsFiles : List (List Nat))
    (bmtFile : Option (List Nat)) : RunResult :=
  let skel :=
    match bskFile with
    | none => false
    | some b => (import_bsk_outcome b).isSome
  let p := decode_bms_files bmsFiles
  match p.2 with
  | some _ => ⟨skel, p.1, false, true⟩
  | none =>
    match bmtFile with
    | none => ⟨skel, p.1, false, false⟩
    | some b =>
      match import_bmt_sig b with
      | .error _ => ⟨skel, p.1, false, true⟩
      | .ok _ => ⟨skel, p.1, true, false⟩

end SROImport

namespace SROImport

/-- Modelled from the claim wording (spec 4.6): `offset = index − N`; pick
the first non-empty category in the precedence order spine, then limb/arm,
then thigh/leg, then generic, and take
`category_list[offset mod len(category_list)]`; if no category is
populated, fall back to `index mod N`.  Written for comparison with the
source's `smart_bone_remap`. -/
def claimed_remap (bones : List (List Char)) (idx : Nat) : Nat :=
  let N := bones.length
  let offset := idx - N
  let spine := spine_bones bones
  let arm := arm_bones bones
  let leg := leg_bones bones
  let other := other_bones bones
  if spine ≠ [] then spine.getD (offset % spine.length) 0
  else if arm ≠ [] then arm.getD (offset % arm.length) 0
  else if leg ≠ [] then leg.getD (offset % leg.length) 0
  else if other ≠ [] then other.getD (offset % other.length) 0
  else idx % N

/-- Modelled from the amended claim wording: for an out-of-range index
below the hard-coded threshold 77 the resolved bone is `index mod N`; from
77 upwards `offset = index − 77` selects the spine category when non-empty
and `offset < |spine|` (entry `offset mod |spine|`), else the arm category
when non-empty and `offset < 2·|arm|` (entry `(offset − |spine|) mod
|arm|`), else the leg category when non-empty and `offset < 2·|leg|`
(entry `(offset − |spine| − |arm|) mod |leg|`), else the Bone-prefixed
category when non-empty (entry `offset mod |other|`), else bone
`1 + ((index − 77) mod (N − 1))` — undefined (a fatal division by zero)
when `N = 1`. -/
def amended_remap (bones : List (List Char)) (idx : Nat) : Option Nat :=
  let N := bones.length
  let spine := spine_bones bones
  let arm := arm_bones bones
  let leg := leg_bones bones
  let other := other_bones bones
  if idx < 77 then some (idx % N)
  else
    let offset := idx - 77
    if spine ≠ [] ∧ offset < spine.length then
      some (spine.getD (offset % spine.length) 0)
    else if arm ≠ [] ∧ offset < arm.length * 2 then
      some (arm.getD (pymod ((offset : Int) - spine.length) arm.length) 0)
    else if leg ≠ [] ∧ offset < leg.length * 2 then
      some (leg.getD (pymod ((offset : Int) - spine.length - arm.length) leg.length) 0)
    else if other ≠ [] then
      some (other.getD (offset % other.length) 0)
    else if N = 1 then none
    else some (1 + (idx - 77) % (N - 1))

/-- Example armature for the remap comparison: `Spine` populates the spine
category and `Arm`, `ArmX` the arm category. -/
def cex_bones5 : List (List Char) :=
  [("Spine").data, ("Arm").data, ("ArmX").data, ("BB").data, ("CC").data]

/-- Example armature with no category matches. -/
def c2_bones : List (List Char) := [("AAA").data, ("BBB").data]

/-- Skin record whose single active slot is in range (bone 0, full weight). -/
def c2_skin_in : SkinRecord := ⟨[0, 255, 255, 255], [1, 0, 0, 0]⟩

/-- Skin record whose single active slot is out of range for a two-bone
armature (bone index 2). -/
def c2_skin_oob : SkinRecord := ⟨[2, 255, 255, 255], [1, 0, 0, 0]⟩

/-- Mesh with ten processed slots of which three are out of range (30%). -/
def c2_mesh : MeshData :=
  ⟨[], List.replicate 10 (0, 0, 0), [], [],
   List.replicate 7 c2_skin_in ++ List.replicate 3 c2_skin_oob, []⟩

/-- The binder state reached on `c2_mesh` against `c2_bones`. -/
def c2_state : BindState :=
  ⟨10, 3, 0, (List.range 10).map (fun i => (0, i, (1 : ℚ)))⟩

/-- Single-bone armature whose name matches no remap category. -/
def c9_bones : List (List Char) := [("Root").data]

/-- Mesh with one vertex whose skin slot references bone index 77 at full
weight — out of range for a one-bone skeleton. -/
def c9_mesh : MeshData :=
  ⟨[], [(0, 0, 0)], [], [], [⟨[77, 255, 255, 255], [1, 0, 0, 0]⟩], []⟩

/-- A complete little BMS buffer: one vertex (all-zero floats, empty skin
slots), and one face referencing vertices 5, 6, 7 — far beyond the single
decoded vertex.  Header: vertex block at offset 80, face block at
offset 128. -/
def c5_buf : List Nat :=
  strBytes ("JMXV")
    ++ List.replicate 8 0
    ++ ([80, 0, 0, 0] ++ [0, 0, 0, 0] ++ [128, 0, 0, 0] ++ List.replicate 36 0)
    ++ List.replicate 4 0
    ++ List.replicate 4 0
    ++ List.replicate 4 0
    ++ [0, 0, 0, 0]
    ++ [0, 0, 0, 0]
    ++ [1, 0, 0, 0]
    ++ List.replicate 36 0
    ++ [255, 255, 255, 255]
    ++ [0, 0, 0, 0]
    ++ [1, 0, 0, 0]
    ++ [5, 0, 6, 0, 7, 0]

/-- The mesh record `import_bms` decodes from `c5_buf`. -/
def c5_mesh : MeshData :=
  ⟨strBytes ("Mesh"), [(0, 0, 0)], [(5, 6, 7)], [(0, 1)],
   [⟨[255, 255, 255, 255], [0, 0, 0, 0]⟩], []⟩

/-- A mesh buffer with a wrong 4-byte signature. -/
def c8_bad_bms : List Nat := strBytes ("XXXX")

/-- A skeleton buffer with a valid `JMXVBSK` signature prefix. -/
def c8_bsk_good : List Nat := strBytes ("JMXVBSK 0101")

/-- A skeleton buffer with an invalid signature. -/
def c8_bsk_bad : List Nat := strBytes ("XXXXXXXXXXXX")

/-- A material buffer with the exact `JMXVBMT 0102` signature. -/
def c8_bmt_good : List Nat := strBytes ("JMXVBMT 0102")

/-- A material buffer carrying the texture-container signature instead. -/
def c8_bmt_bad : List Nat := strBytes ("JMXVDDJ 1000")

/-- The spec scenario skeleton: Root → Spine → ArmL, ArmR. -/
def c6_bones : List BoneRec :=
  [⟨("Root").data, [], 0⟩,
   ⟨("Spine").data, ("Root").data, 0⟩,
   ⟨("ArmL").data, ("Spine").data, 0⟩,
   ⟨("ArmR").data, ("Spine").data, 0⟩]

/-- Example meshes for combining. -/
def c10_mesh1 : MeshData :=
  ⟨[], [(0, 0, 0), (1, 0, 0)], [(0, 1, 0)], [(0, 0), (1, 1)],
   [⟨[0, 255, 255, 255], [1, 0, 0, 0]⟩, ⟨[1, 255, 255, 255], [1, 0, 0, 0]⟩], []⟩

/-- Second example mesh for combining. -/
def c10_mesh2 : MeshData :=
  ⟨[], [(2, 0, 0)], [(0, 0, 0)], [(0, 0)], [⟨[0, 255, 255, 255], [1, 0, 0, 0]⟩], []⟩

end SROImport

namespace SROImport

lemma sum_map_div (l : List Nat) (T : ℚ) :
    (l.map (fun (w : Nat) => (w : ℚ) / T)).sum = (l.sum : ℚ) / T := by
  induction l with
  | nil => simp
  | cons a l ih =>
    rw [List.map_cons, List.sum_cons, ih, List.sum_cons, Nat.cast_add, add_div]

lemma normalize_weights_sum_pos {raw : List Nat} (h : 0 < raw.sum) :
    (normalize_weights raw).sum = 1 := by
  have hpos : (0 : ℚ) < (raw.sum : ℚ) := by exact_mod_cast h
  rw [normalize_weights, if_pos h, sum_map_div, div_self (ne_of_gt hpos)]

/-- C3: if the sum of the four raw weight bytes is positive, every
normalized weight is `raw / sum` and the normalized weights sum to exactly 1
(in particular within any epsilon); if the sum is zero all normalized
weights are exactly 0; hence each vertex's normalized weight sum lies in
the set containing 0 and the interval from 1 − ε to 1 + ε (ε = 1/1000). -/
theorem claim_C3_theorem (raw : List Nat) :
    (0 < raw.sum →
      normalize_weights raw = raw.map (fun (w : Nat) => (w : ℚ) / (raw.sum : ℚ))
      ∧ (normalize_weights raw).sum = 1)
    ∧ (raw.sum = 0 →
      normalize_weights raw = [0, 0, 0, 0] ∧ (normalize_weights raw).sum = 0)
    ∧ ((normalize_weights raw).sum = 0
      ∨ (1 - 1 / 1000 ≤ (normalize_weights raw).sum
        ∧ (normalize_weights raw).sum ≤ 1 + 1 / 1000)) := by
  refine ⟨fun h => ⟨by simp [normalize_weights, h], normalize_weights_sum_pos h⟩,
    fun h => ⟨by simp [normalize_weights, h], by simp [normalize_weights, h]⟩, ?_⟩
  rcases Nat.eq_zero_or_pos raw.sum with h | h
  · left
    simp [normalize_weights, h]
  · right
    rw [normalize_weights_sum_pos h]
    constructor <;> norm_num

/-- C3 witness: the all-50 vertex of the spec scenario normalizes to
`raw / 200` with total weight 1, and an all-zero vertex keeps four zero
weights. -/
theorem claim_C3_witness :
    (normalize_weights [50, 50, 50, 50] =
        ([50, 50, 50, 50] : List Nat).map
          (fun (w : Nat) => (w : ℚ) / ((([50, 50, 50, 50] : List Nat).sum : Nat) : ℚ))
      ∧ (normalize_weights [50, 50, 50, 50]).sum = 1)
    ∧ (normalize_weights [0, 0, 0, 0] = [0, 0, 0, 0]
      ∧ (normalize_weights [0, 0, 0, 0]).sum = 0) :=
  ⟨(claim_C3_theorem [50, 50, 50, 50]).1 (by decide),
   (claim_C3_theorem [0, 0, 0, 0]).2.1 (by decide)⟩

lemma process_slot_skip (bones : List (List Char)) (vIdx : Nat) (st : BindState)
    (idx : Nat) (w : ℚ) (h : idx = 255 ∨ w ≤ 1 / 1000) :
    ∃ st', process_slot bones vIdx st (idx, w) = some st'
      ∧ st'.contribs = st.contribs ∧ st'.total = st.total
      ∧ st'.outOfRange = st.outOfRange := by
  rcases h with h | h
  · refine ⟨{ st with skippedEmpty :=
      if 0 < w then st.skippedEmpty + 1 else st.skippedEmpty }, ?_, rfl, rfl, rfl⟩
    simp [process_slot, h]
  · by_cases h255 : idx = 255
    · refine ⟨{ st with skippedEmpty :=
        if 0 < w then st.skippedEmpty + 1 else st.skippedEmpty }, ?_, rfl, rfl, rfl⟩
      simp [process_slot, h255]
    · refine ⟨st, ?_, rfl, rfl, rfl⟩
      simp [process_slot, h255, h]
      intro hlt
      exact absurd hlt (not_lt.mpr (by rwa [one_div] at h))

/-- C4 counterexample: for the spec-scenario vertex with raw weights
50, 50, 50 on real bones and 200 on an empty (index 255) slot, the decoder
divides every slot by the sum of all four bytes (350), not by the sum of
the non-empty slots (150): the claim would predict 50/150 for the first
three weights, the code produces 50/350. -/
theorem claim_C4_counterexample :
    normalize_weights [50, 50, 50, 200] = [50 / 350, 50 / 350, 50 / 350, 200 / 350]
    ∧ normalize_weights [50, 50, 50, 200] ≠ [50 / 150, 50 / 150, 50 / 150, 0] := by
  constructor <;> with_unfolding_all decide

/-- C4 amended: the binder contributes nothing for a slot whose index is
255 (whatever its weight) or whose normalized weight is at most 0.001 —
such a slot changes no vertex group and no counter except the
empty-slot statistic; however, decode-time normalization divides by the sum
of all four raw bytes, so a non-zero weight byte in an empty slot does
dilute the other slots' normalized weights. -/
theorem claim_C4_theorem :
    (∀ (bones : List (List Char)) (vIdx : Nat) (st : BindState) (idx : Nat) (w : ℚ),
      idx = 255 ∨ w ≤ 1 / 1000 →
      ∃ st', process_slot bones vIdx st (idx, w) = some st'
        ∧ st'.contribs = st.contribs ∧ st'.total = st.total
        ∧ st'.outOfRange = st.outOfRange)
    ∧ (∀ raw : List Nat, 0 < raw.sum →
      normalize_weights raw = raw.map (fun (w : Nat) => (w : ℚ) / (raw.sum : ℚ))) :=
  ⟨process_slot_skip, fun raw h => by simp [normalize_weights, h]⟩

/-- C4 witness: an empty slot with full weight contributes nothing, and the
scenario vertex normalizes over the sum of all four bytes. -/
theorem claim_C4_witness :
    (∃ st', process_slot c2_bones 0 ⟨0, 0, 0, []⟩ (255, 1) = some st'
      ∧ st'.contribs = (⟨0, 0, 0, []⟩ : BindState).contribs
      ∧ st'.total = (⟨0, 0, 0, []⟩ : BindState).total
      ∧ st'.outOfRange = (⟨0, 0, 0, []⟩ : BindState).outOfRange)
    ∧ normalize_weights [50, 50, 50, 200] =
        ([50, 50, 50, 200] : List Nat).map
          (fun (w : Nat) => (w : ℚ) / ((([50, 50, 50, 200] : List Nat).sum : Nat) : ℚ)) :=
  ⟨claim_C4_theorem.1 c2_bones 0 ⟨0, 0, 0, []⟩ 255 1 (Or.inl rfl),
   claim_C4_theorem.2 [50, 50, 50, 200] (by decide)⟩

/-- C9: the out-of-range policy is fatal on a one-bone skeleton.  For the
single bone `Root` (matching no remap category) and a slot with bone index
77 and weight 1, the fallback `(bone_idx - 77) % (len(bones) - 1)` divides
by zero; `ZeroDivisionError` is not among the exceptions caught at
line 1130, so the whole bind aborts (modelled by `none`). -/
theorem claim_C9_theorem :
    bind_to_skeleton [c9_mesh] c9_bones = none
    ∧ smart_bone_remap c9_bones 77 = none := by
  constructor
  · with_unfolding_all decide
  · decide

/-- C1 counterexample: on a five-bone armature `Spine, Arm, ArmX, BB, CC`
with out-of-range index 78, the code resolves to bone 1 (the arm category,
offset counted from the hard-coded threshold 77), while the claimed rule —
`offset = index − N = 73`, first non-empty category is spine, entry
`73 mod 1` — resolves to bone 0. -/
theorem claim_C1_counterexample :
    smart_bone_remap cex_bones5 78 = some 1
    ∧ claimed_remap cex_bones5 78 = 0
    ∧ (1 : Nat) ≠ 0 :=
  ⟨by decide, by decide, by decide⟩

end SROImport

namespace SROImport

lemma boneIndicesWhere_lt (bones : List (List Char)) (f : List Char → Bool) :
    ∀ i ∈ boneIndicesWhere bones f, i < bones.length := by
  intro i hi
  unfold boneIndicesWhere at hi
  obtain ⟨p, hp, rfl⟩ := List.mem_map.1 hi
  have hp2 := (List.mem_filter.1 hp).1
  have h3 := List.mem_enum_iff_getElem?.1 hp2
  have h4 := List.getElem?_eq_some_iff.1 h3
  exact h4.1

lemma getD_lt_of_all {l : List Nat} {N : Nat} (h : ∀ i ∈ l, i < N)
    {k : Nat} (hk : k < l.length) (d : Nat) : l.getD k d < N := by
  rw [List.getD_eq_getElem?_getD, List.getElem?_eq_getElem hk]
  exact h _ (List.getElem_mem hk)

lemma pymod_lt (a : Int) {m : Nat} (hm : 0 < m) : pymod a m < m := by
  unfold pymod
  have h1 : (0 : Int) < (m : Int) := by exact_mod_cast hm
  have h3 : 0 ≤ a % (m : Int) := Int.emod_nonneg a (by omega)
  have h4 : a % (m : Int) < (m : Int) := Int.emod_lt_of_pos a h1
  omega

lemma smart_remap_eq_amended (bones : List (List Char)) (idx : Nat)
    (hb : 0 < bones.length) :
    smart_bone_remap bones idx = amended_remap bones idx := by
  simp only [smart_bone_remap, amended_remap]
  by_cases h77 : 77 ≤ idx
  · rw [if_pos h77, if_neg (show ¬ idx < 77 by omega)]
    split_ifs with h1 h2 h3 h4 h5 h6 <;> first | rfl | omega | simp [Nat.add_comm]
  · rw [if_neg h77, if_pos (show idx < 77 by omega),
      if_neg (show ¬ bones.length = 0 by omega)]

lemma smart_remap_lt (bones : List (List Char)) (idx j : Nat)
    (hb : 0 < bones.length) (h : smart_bone_remap bones idx = some j) :
    j < bones.length := by
  simp only [smart_bone_remap] at h
  split_ifs at h with h77 h1 h2 h3 h4 h5 h6 h7
  · rw [Option.some_inj] at h
    subst h
    refine getD_lt_of_all (boneIndicesWhere_lt bones _) ?_ 0
    exact Nat.mod_lt _ (List.length_pos.2 h1.1)
  · rw [Option.some_inj] at h
    subst h
    refine getD_lt_of_all (boneIndicesWhere_lt bones _) ?_ 0
    exact pymod_lt _ (List.length_pos.2 h2.1)
  · rw [Option.some_inj] at h
    subst h
    refine getD_lt_of_all (boneIndicesWhere_lt bones _) ?_ 0
    exact pymod_lt _ (List.length_pos.2 h3.1)
  · rw [Option.some_inj] at h
    subst h
    refine getD_lt_of_all (boneIndicesWhere_lt bones _) ?_ 0
    exact Nat.mod_lt _ (List.length_pos.2 h4)
  · omega
  · rw [Option.some_inj] at h
    subst h
    have h8 := Nat.mod_lt (idx - 77) (show 0 < bones.length - 1 by omega)
    omega
  · rw [Option.some_inj] at h
    subst h
    exact Nat.mod_lt _ hb

/-- C1 amended: the out-of-range remap works from the hard-coded threshold
77, not from the bone count `N`.  For an armature with at least one bone the
code's remap agrees everywhere with the amended rule: indices below 77
resolve to `index mod N`; from 77 upwards `offset = index − 77` selects the
spine category only when `offset < |spine|`, else the arm category when
`offset < 2·|arm|` (entry `(offset − |spine|) mod |arm|`), else the leg
category when `offset < 2·|leg|` (entry `(offset − |spine| − |arm|) mod
|leg|`), else the Bone-prefixed category (entry `offset mod |other|`), else
bone `1 + ((index − 77) mod (N − 1))`, which is a fatal division by zero
when `N = 1`.  Every resolved index is a valid bone index (`< N`). -/
theorem claim_C1_theorem :
    (∀ (bones : List (List Char)) (idx : Nat), 0 < bones.length →
      smart_bone_remap bones idx = amended_remap bones idx)
    ∧ (∀ (bones : List (List Char)) (idx j : Nat), 0 < bones.length →
      smart_bone_remap bones idx = some j → j < bones.length) :=
  ⟨fun bones idx hb => smart_remap_eq_amended bones idx hb,
   fun bones idx j hb h => smart_remap_lt bones idx j hb h⟩

/-- C1 witness: the remap agrees with the amended rule on the concrete
five-bone armature at index 78, and resolves within range. -/
theorem claim_C1_witness :
    smart_bone_remap cex_bones5 78 = amended_remap cex_bones5 78
    ∧ (smart_bone_remap cex_bones5 78 = some 1 → (1 : Nat) < cex_bones5.length) :=
  ⟨claim_C1_theorem.1 cex_bones5 78 (by decide),
   fun h => claim_C1_theorem.2 cex_bones5 78 1 (by decide) h⟩

end SROImport

namespace SROImport

lemma nearest_loop_spec (v : ℚ × ℚ × ℚ) (l : List (ℚ × ℚ × ℚ)) :
    ∀ (i : Nat) (m : ℚ) (c : Nat),
    ∃ m' c', nearest_loop v l i (some (m, c)) = some (m', c')
      ∧ (m' = m ∧ c' = c
        ∨ ∃ k, k < l.length ∧ c' = i + k ∧ m' = dist2 (l.getD k (0, 0, 0)) v)
      ∧ m' ≤ m
      ∧ ∀ j, j < l.length → m' ≤ dist2 (l.getD j (0, 0, 0)) v := by
  induction l with
  | nil =>
    intro i m c
    exact ⟨m, c, rfl, Or.inl ⟨rfl, rfl⟩, le_refl m, fun j hj => absurd hj (by simp)⟩
  | cons h t ih =>
    intro i m c
    by_cases hd : dist2 h v < m
    · obtain ⟨m', c', heq, hcase, hle, hmin⟩ := ih (i + 1) (dist2 h v) i
      refine ⟨m', c', ?_, ?_, (hle.trans_lt hd).le, ?_⟩
      · simp only [nearest_loop]
        rw [if_pos hd]
        exact heq
      · rcases hcase with ⟨hm, hc⟩ | ⟨k, hk, hc, hm⟩
        · exact Or.inr ⟨0, by simp, by omega, by simp [hm]⟩
        · exact Or.inr ⟨k + 1, by simp; omega, by omega, by simp [hm]⟩
      · intro j hj
        rcases j with _ | j
        · simpa using hle
        · simpa using hmin j (by simpa using hj)
    · obtain ⟨m', c', heq, hcase, hle, hmin⟩ := ih (i + 1) m c
      refine ⟨m', c', ?_, ?_, hle, ?_⟩
      · simp only [nearest_loop]
        rw [if_neg hd]
        exact heq
      · rcases hcase with ⟨hm, hc⟩ | ⟨k, hk, hc, hm⟩
        · exact Or.inl ⟨hm, hc⟩
        · exact Or.inr ⟨k + 1, by simp; omega, by omega, by simp [hm]⟩
      · intro j hj
        rcases j with _ | j
        · simpa using hle.trans (le_of_not_lt hd)
        · simpa using hmin j (by simpa using hj)

lemma nearest_bone_index_spec (heads : List (ℚ × ℚ × ℚ)) (v : ℚ × ℚ × ℚ)
    (hne : heads ≠ []) :
    ∃ c, nearest_bone_index heads v = some c ∧ c < heads.length
      ∧ ∀ j, j < heads.length →
        dist2 (heads.getD c (0, 0, 0)) v ≤ dist2 (heads.getD j (0, 0, 0)) v := by
  rcases heads with _ | ⟨h, t⟩
  · exact absurd rfl hne
  · obtain ⟨m', c', heq, hcase, hle, hmin⟩ := nearest_loop_spec v t 1 (dist2 h v) 0
    have hstep : nearest_loop v (h :: t) 0 none = nearest_loop v t 1 (some (dist2 h v, 0)) := by
      simp [nearest_loop]
    have hmc : m' = dist2 ((h :: t).getD c' (0, 0, 0)) v := by
      rcases hcase with ⟨hm, hc⟩ | ⟨k, hk, hc, hm⟩
      · subst hc
        simpa using hm
      · subst hc
        simpa [Nat.add_comm 1 k] using hm
    refine ⟨c', ?_, ?_, ?_⟩
    · unfold nearest_bone_index
      rw [hstep, heq]
      rfl
    · rcases hcase with ⟨-, hc⟩ | ⟨k, hk, hc, -⟩ <;> simp <;> omega
    · intro j hj
      rw [← hmc]
      rcases j with _ | j
      · simpa using hle
      · simpa using hmin j (by simpa using hj)

lemma nearest_assign_eq_map (verts heads : List (ℚ × ℚ × ℚ)) (hne : heads ≠ []) :
    nearest_assign verts heads =
      verts.enum.map (fun p => ((nearest_bone_index heads p.2).getD 0, p.1, (1 : ℚ))) := by
  unfold nearest_assign
  have key : ∀ l : List (Nat × (ℚ × ℚ × ℚ)),
      l.filterMap (fun p =>
        match nearest_bone_index heads p.2 with
        | none => none
        | some c => some (c, p.1, (1 : ℚ))) =
      l.map (fun p => ((nearest_bone_index heads p.2).getD 0, p.1, (1 : ℚ))) := by
    intro l
    induction l with
    | nil => rfl
    | cons a t ih =>
      obtain ⟨c, hc, -, -⟩ := nearest_bone_index_spec heads a.2 hne
      simp [List.filterMap_cons, hc, ih]
  exact key _

/-- C2 counterexample: a mesh with ten processed slots of which three
reference out-of-range bones (30% ≥ 20%).  The binder's fallback for this
ratio is Blender's automatic-weights parenting (`ARMATURE_AUTO`, lines
1159-1256) — not a nearest-bone weight-1.0 assignment, which the code only
reaches when automatic weights leaves no vertex groups and no stored skin
data exists (lines 1258-1299). -/
theorem claim_C2_counterexample :
    bind_to_skeleton [c2_mesh] c2_bones = some c2_state
    ∧ out_of_range_fraction c2_state = 3 / 10
    ∧ weight_source c2_state true true = WeightSource.autoWeights
    ∧ WeightSource.autoWeights ≠ WeightSource.nearestBone := by
  refine ⟨?_, ?_, ?_, ?_⟩
  · with_unfolding_all decide
  · with_unfolding_all decide
  · with_unfolding_all decide
  · decide

/-- C2 amended: when the out-of-range fraction of the processed slots
reaches 20% the binder abandons the index-based result, but the engaged
fallback is Blender's automatic weights; the nearest-bone weight-1.0
assignment is only the last resort, used when automatic weights produces
no vertex groups and no stored combined skin data is available.  Below 20%
the index-based result is kept.  The ratio equals
`out_of_range_count / total_weights` whenever slots were processed, and the
nearest-bone assignment really gives every vertex weight 1.0 on a closest
bone. -/
theorem claim_C2_theorem :
    (∀ (st : BindState) (autoOk hasCombined : Bool),
      (weight_source st autoOk hasCombined = WeightSource.indexBased ↔
        out_of_range_fraction st < 1 / 5)
      ∧ (weight_source st autoOk hasCombined = WeightSource.nearestBone ↔
        1 / 5 ≤ out_of_range_fraction st ∧ autoOk = false ∧ hasCombined = false)
      ∧ (1 / 5 ≤ out_of_range_fraction st → autoOk = true →
        weight_source st autoOk hasCombined = WeightSource.autoWeights))
    ∧ (∀ st : BindState, 0 < st.total →
      out_of_range_fraction st = (st.outOfRange : ℚ) / (st.total : ℚ))
    ∧ (∀ (heads : List (ℚ × ℚ × ℚ)) (v : ℚ × ℚ × ℚ), heads ≠ [] →
      ∃ c, nearest_bone_index heads v = some c ∧ c < heads.length
        ∧ ∀ j, j < heads.length →
          dist2 (heads.getD c (0, 0, 0)) v ≤ dist2 (heads.getD j (0, 0, 0)) v)
    ∧ (∀ (verts heads : List (ℚ × ℚ × ℚ)), heads ≠ [] →
      nearest_assign verts heads =
        verts.enum.map (fun p => ((nearest_bone_index heads p.2).getD 0, p.1, (1 : ℚ)))) := by
  refine ⟨?_, ?_, nearest_bone_index_spec, nearest_assign_eq_map⟩
  · intro st autoOk hasCombined
    refine ⟨?_, ?_, ?_⟩
    · unfold weight_source
      by_cases h : 1 / 5 ≤ out_of_range_fraction st
      · rw [if_pos h]
        constructor
        · intro hc
          exfalso
          rcases autoOk <;> rcases hasCombined <;> simp at hc
        · intro hlt
          exact absurd h (not_le.2 hlt)
      · rw [if_neg h]
        exact ⟨fun _ => lt_of_not_le h, fun _ => rfl⟩
    · unfold weight_source
      by_cases h : 1 / 5 ≤ out_of_range_fraction st
      · rw [if_pos h]
        rcases autoOk <;> rcases hasCombined <;> simp [h]
        simpa using h
      · rw [if_neg h]
        simp
        intro hge
        exact absurd hge (by simpa using h)
    · intro h ha
      unfold weight_source
      rw [if_pos h, ha]
      rfl
  · intro st h
    unfold out_of_range_fraction
    rw [if_pos h, max_eq_right (show (1 : ℚ) ≤ (st.total : ℚ) by exact_mod_cast h)]

/-- C2 witness: the characterizations instantiated on the 30% state and on
concrete bone heads. -/
theorem claim_C2_witness :
    (weight_source c2_state true true = WeightSource.indexBased ↔
      out_of_range_fraction c2_state < 1 / 5)
    ∧ out_of_range_fraction c2_state = (c2_state.outOfRange : ℚ) / (c2_state.total : ℚ)
    ∧ (∃ c, nearest_bone_index [(0, 0, 0), (1, 2, 3)] (0, 0, 0) = some c
      ∧ c < ([(0, 0, 0), (1, 2, 3)] : List (ℚ × ℚ × ℚ)).length
      ∧ ∀ j, j < ([(0, 0, 0), (1, 2, 3)] : List (ℚ × ℚ × ℚ)).length →
        dist2 (([(0, 0, 0), (1, 2, 3)] : List (ℚ × ℚ × ℚ)).getD c (0, 0, 0)) (0, 0, 0)
          ≤ dist2 (([(0, 0, 0), (1, 2, 3)] : List (ℚ × ℚ × ℚ)).getD j (0, 0, 0)) (0, 0, 0))
    ∧ nearest_assign [(5, 5, 5)] [(1, 1, 1)] =
      ([(5, 5, 5)] : List (ℚ × ℚ × ℚ)).enum.map
        (fun p => ((nearest_bone_index [(1, 1, 1)] p.2).getD 0, p.1, (1 : ℚ))) :=
  ⟨(claim_C2_theorem.1 c2_state true true).1,
   claim_C2_theorem.2.1 c2_state (by decide),
   claim_C2_theorem.2.2.1 [(0, 0, 0), (1, 2, 3)] (0, 0, 0) (by decide),
   claim_C2_theorem.2.2.2 [(5, 5, 5)] [(1, 1, 1)] (by decide)⟩

end SROImport

namespace SROImport

lemma convert_vec_formula (v : ℚ × ℚ × ℚ) :
    convert_vec_sro_to_blender v = (v.1, -v.2.2, v.2.1) := by
  simp [convert_vec_sro_to_blender, mat4_apply_vec3, SRO_TO_BLENDER_POS_MATRIX,
    Matrix.vecHead, Matrix.vecTail]

lemma convert_vec_round_trip (v : ℚ × ℚ × ℚ) :
    mat3_apply_vec3 C3inv (convert_vec_sro_to_blender v) = v := by
  simp [convert_vec_sro_to_blender, mat4_apply_vec3, mat3_apply_vec3,
    SRO_TO_BLENDER_POS_MATRIX, C3inv, Matrix.vecHead, Matrix.vecTail]

lemma convert_quat_matrix_eq (q : Quat ℚ) :
    convert_quat_matrix q = quat_to_matrix ⟨q.w, q.x, -q.z, q.y⟩ := by
  unfold convert_quat_matrix
  ext i j
  fin_cases i <;> fin_cases j <;>
    simp [Matrix.mul_apply, Fin.sum_univ_three, C3mat, C3inv, quat_to_matrix,
      Matrix.vecHead, Matrix.vecTail] <;> ring

lemma basis_quat_conjugation (s w x y z : ℝ) (hs : s ^ 2 = 1 / 2) :
    quat_mul (quat_mul ⟨s, s, 0, 0⟩ ⟨w, x, y, z⟩) (quat_conj ⟨s, s, 0, 0⟩) =
      ⟨w, x, -z, y⟩ := by
  simp only [quat_mul, quat_conj, Quat.mk.injEq]
  refine ⟨?_, ?_, ?_, ?_⟩
  · linear_combination 2 * w * hs
  · linear_combination 2 * x * hs
  · linear_combination (-2 * z) * hs
  · linear_combination 2 * y * hs

/-- C7: the position transform maps (x, y, z) to (x, −z, y); `C3inv` is a
two-sided inverse of the 3×3 basis matrix and applying it after the
transform returns the original vector exactly (the rational model of the
floating round trip); the conjugated matrix `m_conv = C3 · R(q) · C3⁻¹`
computed by `convert_quat_sro_to_blender` equals the rotation matrix of the
quaternion (w, x, −z, y) — which is exactly the conjugation `c·q·c⁻¹` of q
by the basis quaternion `c = (s, s, 0, 0)` with `s² = 1/2` (i.e. `s = √2/2`),
so converting `m_conv` back to a normalized quaternion is the similarity
transform of the claim. -/
theorem claim_C7_theorem :
    (∀ v : ℚ × ℚ × ℚ, convert_vec_sro_to_blender v = (v.1, -v.2.2, v.2.1))
    ∧ (C3inv * C3mat = 1 ∧ C3mat * C3inv = 1)
    ∧ (∀ v : ℚ × ℚ × ℚ, mat3_apply_vec3 C3inv (convert_vec_sro_to_blender v) = v)
    ∧ (∀ q : Quat ℚ, convert_quat_matrix q = quat_to_matrix ⟨q.w, q.x, -q.z, q.y⟩)
    ∧ (∀ s w x y z : ℝ, s ^ 2 = 1 / 2 →
      quat_mul (quat_mul ⟨s, s, 0, 0⟩ ⟨w, x, y, z⟩) (quat_conj ⟨s, s, 0, 0⟩) =
        ⟨w, x, -z, y⟩) := by
  refine ⟨convert_vec_formula, ⟨?_, ?_⟩, convert_vec_round_trip,
    convert_quat_matrix_eq, basis_quat_conjugation⟩
  · with_unfolding_all decide
  · with_unfolding_all decide

/-- C7 witness: the transform and its inverse on the vector (1, 2, 3), the
conjugated matrix of the identity quaternion, and the quaternion
conjugation instantiated at `s = √(1/2)`. -/
theorem claim_C7_witness :
    convert_vec_sro_to_blender (1, 2, 3) = ((1 : ℚ), -3, 2)
    ∧ mat3_apply_vec3 C3inv (convert_vec_sro_to_blender (1, 2, 3)) = (1, 2, 3)
    ∧ convert_quat_matrix ⟨1, 0, 0, 0⟩ = quat_to_matrix ⟨1, 0, -0, 0⟩
    ∧ quat_mul (quat_mul ⟨Real.sqrt (1 / 2), Real.sqrt (1 / 2), 0, 0⟩ ⟨1, 0, 0, 0⟩)
        (quat_conj ⟨Real.sqrt (1 / 2), Real.sqrt (1 / 2), 0, 0⟩) = ⟨1, 0, -0, 0⟩ :=
  ⟨claim_C7_theorem.1 (1, 2, 3),
   claim_C7_theorem.2.2.1 (1, 2, 3),
   claim_C7_theorem.2.2.2.1 ⟨1, 0, 0, 0⟩,
   claim_C7_theorem.2.2.2.2 (Real.sqrt (1 / 2)) 1 0 0 0
     (Real.sq_sqrt one_half_pos.le)⟩

end SROImport

namespace SROImport

lemma combine_loop_spec (l : List MeshData) :
    ∀ st : CombState,
    (l.foldl combine_step st).verts = st.verts ++ (l.map (fun d => d.vertices)).flatten
    ∧ (l.foldl combine_step st).uvs = st.uvs ++ (l.map (fun d => d.uvs)).flatten
    ∧ (l.foldl combine_step st).skins = st.skins ++ (l.map (fun d => d.skins)).flatten
    ∧ (l.foldl combine_step st).vOff = st.vOff + (l.map (fun d => d.vertices.length)).sum
    ∧ (l.foldl combine_step st).faces = st.faces ++ shifted_faces st.vOff l := by
  induction l with
  | nil => intro st; simp [shifted_faces]
  | cons d t ih =>
    intro st
    obtain ⟨h1, h2, h3, h4, h5⟩ := ih (combine_step st d)
    rw [List.foldl_cons]
    refine ⟨?_, ?_, ?_, ?_, ?_⟩
    · rw [h1]; simp [combine_step, List.append_assoc]
    · rw [h2]
      show (if d.uvs = [] then st.uvs else st.uvs ++ d.uvs) ++ _ = _
      split_ifs with h <;> simp [h, List.append_assoc]
    · rw [h3]
      show (if d.skins = [] then st.skins else st.skins ++ d.skins) ++ _ = _
      split_ifs with h <;> simp [h, List.append_assoc]
    · rw [h4]; simp [combine_step]; omega
    · rw [h5]; simp [combine_step, shifted_faces, List.append_assoc]

lemma join_vertices_getElem (l : List MeshData) :
    ∀ (i : Nat) (hi : i < l.length) (a : Nat), a < (l.get ⟨i, hi⟩).vertices.length →
    ((l.map (fun d => d.vertices)).flatten)[v_offset_before l i + a]? =
      (l.get ⟨i, hi⟩).vertices[a]? := by
  induction l with
  | nil => intro i hi; exact absurd hi (by simp)
  | cons d t ih =>
    intro i hi a ha
    rcases i with _ | i
    · simp only [v_offset_before, List.take, List.map_nil, List.sum_nil, Nat.zero_add]
      simp only [List.map_cons, List.flatten_cons]
      rw [List.getElem?_append_left (by simpa using ha)]
      rfl
    · have hoff : v_offset_before (d :: t) (i + 1) =
          d.vertices.length + v_offset_before t i := by
        simp [v_offset_before, List.take_succ_cons]
      rw [hoff]
      simp only [List.map_cons, List.flatten_cons]
      rw [List.getElem?_append_right (by omega)]
      have harr : d.vertices.length + v_offset_before t i + a - d.vertices.length =
          v_offset_before t i + a := by omega
      rw [harr]
      exact ih i (by simpa using hi) a (by simpa using ha)

lemma shifted_faces_mem (l : List MeshData) :
    ∀ (off : Nat) (i : Nat) (hi : i < l.length) (f : Nat × Nat × Nat),
      f ∈ (l.get ⟨i, hi⟩).faces →
      shift_face (off + v_offset_before l i) f ∈ shifted_faces off l := by
  induction l with
  | nil => intro off i hi; exact absurd hi (by simp)
  | cons d t ih =>
    intro off i hi f hf
    rcases i with _ | i
    · simp only [shifted_faces, v_offset_before, List.take, List.map_nil,
        List.sum_nil, Nat.add_zero, List.mem_append]
      exact Or.inl (List.mem_map_of_mem _ hf)
    · simp only [shifted_faces, List.mem_append]
      right
      have hmem := ih (off + d.vertices.length) i (by simpa using hi) f (by simpa using hf)
      have harr : off + d.vertices.length + v_offset_before t i =
          off + v_offset_before (d :: t) (i + 1) := by
        simp [v_offset_before, List.take_succ_cons]
        omega
      rwa [harr] at hmem

lemma shifted_faces_bound (l : List MeshData) :
    ∀ (off : Nat) (f : Nat × Nat × Nat),
      (∀ d ∈ l, ∀ g ∈ d.faces, g.1 < d.vertices.length
        ∧ g.2.1 < d.vertices.length ∧ g.2.2 < d.vertices.length) →
      f ∈ shifted_faces off l →
      f.1 < off + (l.map (fun d => d.vertices.length)).sum
      ∧ f.2.1 < off + (l.map (fun d => d.vertices.length)).sum
      ∧ f.2.2 < off + (l.map (fun d => d.vertices.length)).sum := by
  induction l with
  | nil =>
    intro off f h hf
    exact absurd hf (by simp [shifted_faces])
  | cons d t ih =>
    intro off f h hf
    simp only [List.map_cons, List.sum_cons]
    rw [shifted_faces] at hf
    rcases List.mem_append.1 hf with hf | hf
    · obtain ⟨g, hg, rfl⟩ := List.mem_map.1 hf
      obtain ⟨b1, b2, b3⟩ := h d (by simp) g hg
      simp only [shift_face]
      refine ⟨by omega, by omega, by omega⟩
    · have hb := ih (off + d.vertices.length) f (fun d' hd' => h d' (by simp [hd'])) hf
      refine ⟨by omega, by omega, by omega⟩

lemma create_combined_mesh_parts (l : List MeshData) (name : List Nat) :
    (create_combined_mesh l name).vertices = (l.map (fun d => d.vertices)).flatten
    ∧ (create_combined_mesh l name).uvs = (l.map (fun d => d.uvs)).flatten
    ∧ (create_combined_mesh l name).skins = (l.map (fun d => d.skins)).flatten
    ∧ (create_combined_mesh l name).faces = shifted_faces 0 l := by
  obtain ⟨h1, h2, h3, h4, h5⟩ := combine_loop_spec l ⟨[], [], [], [], 0⟩
  exact ⟨by simpa using h1, by simpa using h2, by simpa using h3, by simpa using h5⟩

/-- C10: combining decoded meshes concatenates the vertex, UV and skin
sequences in list order and shifts every face of mesh `i` by the cumulative
vertex count of the meshes before it; consequently the combined sequence
lengths are the sums of the input lengths, every shifted face looks up the
same vertex of the same source mesh it referred to originally, and if every
source mesh's face indices were below its own vertex count, every combined
face index is below the combined vertex count. -/
theorem claim_C10_theorem :
    (∀ (l : List MeshData) (name : List Nat),
      (create_combined_mesh l name).vertices = (l.map (fun d => d.vertices)).flatten
      ∧ (create_combined_mesh l name).uvs = (l.map (fun d => d.uvs)).flatten
      ∧ (create_combined_mesh l name).skins = (l.map (fun d => d.skins)).flatten
      ∧ (create_combined_mesh l name).faces = shifted_faces 0 l
      ∧ (create_combined_mesh l name).vertices.length =
          (l.map (fun d => d.vertices.length)).sum
      ∧ (create_combined_mesh l name).uvs.length = (l.map (fun d => d.uvs.length)).sum
      ∧ (create_combined_mesh l name).skins.length = (l.map (fun d => d.skins.length)).sum)
    ∧ (∀ (l : List MeshData) (name : List Nat) (i : Nat) (hi : i < l.length) (a : Nat),
      a < (l.get ⟨i, hi⟩).vertices.length →
      (create_combined_mesh l name).vertices[v_offset_before l i + a]? =
        (l.get ⟨i, hi⟩).vertices[a]?)
    ∧ (∀ (l : List MeshData) (name : List Nat) (i : Nat) (hi : i < l.length)
        (f : Nat × Nat × Nat), f ∈ (l.get ⟨i, hi⟩).faces →
      shift_face (v_offset_before l i) f ∈ (create_combined_mesh l name).faces)
    ∧ (∀ (l : List MeshData) (name : List Nat),
      (∀ d ∈ l, ∀ g ∈ d.faces, g.1 < d.vertices.length
        ∧ g.2.1 < d.vertices.length ∧ g.2.2 < d.vertices.length) →
      ∀ f ∈ (create_combined_mesh l name).faces,
        f.1 < (create_combined_mesh l name).vertices.length
        ∧ f.2.1 < (create_combined_mesh l name).vertices.length
        ∧ f.2.2 < (create_combined_mesh l name).vertices.length) := by
  refine ⟨?_, ?_, ?_, ?_⟩
  · intro l name
    obtain ⟨h1, h2, h3, h4⟩ := create_combined_mesh_parts l name
    refine ⟨h1, h2, h3, h4, ?_, ?_, ?_⟩ <;>
      simp [h1, h2, h3, List.length_flatten, List.map_map, Function.comp_def]
  · intro l name i hi a ha
    rw [(create_combined_mesh_parts l name).1]
    exact join_vertices_getElem l i hi a ha
  · intro l name i hi f hf
    rw [(create_combined_mesh_parts l name).2.2.2]
    simpa using shifted_faces_mem l 0 i hi f hf
  · intro l name hall f hf
    rw [(create_combined_mesh_parts l name).2.2.2] at hf
    have hb := shifted_faces_bound l 0 f hall hf
    obtain ⟨h1, -, -, -⟩ := create_combined_mesh_parts l name
    have hlen : (create_combined_mesh l name).vertices.length =
        (l.map (fun d => d.vertices.length)).sum := by
      simp [h1, List.length_flatten, List.map_map, Function.comp_def]
    rw [hlen]
    exact ⟨by omega, by omega, by omega⟩

/-- C10 witness: the combination of two concrete meshes, with the
correspondence and the bound instantiated on the second mesh. -/
theorem claim_C10_witness :
    (create_combined_mesh [c10_mesh1, c10_mesh2] []).vertices[v_offset_before [c10_mesh1, c10_mesh2] 1 + 0]? =
      (([c10_mesh1, c10_mesh2] : List MeshData).get ⟨1, by decide⟩).vertices[0]?
    ∧ shift_face (v_offset_before [c10_mesh1, c10_mesh2] 1) (0, 0, 0) ∈
        (create_combined_mesh [c10_mesh1, c10_mesh2] []).faces
    ∧ ∀ f ∈ (create_combined_mesh [c10_mesh1, c10_mesh2] []).faces,
        f.1 < (create_combined_mesh [c10_mesh1, c10_mesh2] []).vertices.length
        ∧ f.2.1 < (create_combined_mesh [c10_mesh1, c10_mesh2] []).vertices.length
        ∧ f.2.2 < (create_combined_mesh [c10_mesh1, c10_mesh2] []).vertices.length :=
  ⟨claim_C10_theorem.2.1 [c10_mesh1, c10_mesh2] [] 1 (by decide) 0 (by decide),
   claim_C10_theorem.2.2.1 [c10_mesh1, c10_mesh2] [] 1 (by decide) (0, 0, 0) (by decide),
   claim_C10_theorem.2.2.2 [c10_mesh1, c10_mesh2] [] (by decide)⟩

end SROImport

namespace SROImport

lemma collect_go_mono (bones : List BoneRec) :
    ∀ (fuel : Nat) (stack seen : List (List Char)) (sel : List BoneRec),
    ∃ t, collect_go bones fuel stack seen sel = sel ++ t := by
  intro fuel
  induction fuel with
  | zero => intro stack seen sel; exact ⟨[], by simp [collect_go]⟩
  | succ f ih =>
    intro stack seen sel
    rw [collect_go]
    rcases hL : stack.getLast? with _ | cur
    · exact ⟨[], by simp⟩
    · by_cases hseen : cur ∈ seen
      · simpa [hseen] using ih stack.dropLast seen sel
      · rcases hb : name_to_bone bones cur with _ | b
        · simpa [hseen, hb] using ih stack.dropLast (cur :: seen) sel
        · obtain ⟨t, ht⟩ := ih
            (stack.dropLast ++ (children_of bones cur).map (fun c => c.name))
            (cur :: seen) (sel ++ [b])
          refine ⟨[b] ++ t, ?_⟩
          simp [hseen, hb, ht]

lemma name_to_bone_isSome_of_mem {bones : List BoneRec} {b : BoneRec}
    (hb : b ∈ bones) : (name_to_bone bones b.name).isSome := by
  unfold name_to_bone
  rw [List.find?_isSome]
  exact ⟨b, List.mem_reverse.2 hb, by simp⟩

lemma collect_subtree_ne_nil (bones : List BoneRec) (n : List Char)
    (h : (name_to_bone bones n).isSome) : collect_subtree bones n ≠ [] := by
  obtain ⟨b', hb'⟩ := Option.isSome_iff_exists.1 h
  unfold collect_subtree collect_fuel
  rw [collect_go]
  simp only [List.getLast?_singleton, List.dropLast_single, List.not_mem_nil,
    if_false, hb', List.nil_append]
  obtain ⟨t, ht⟩ := collect_go_mono bones ((bones.length + 1) * (bones.length + 1))
    ((children_of bones n).map (fun c => c.name)) [n] [b']
  rw [ht]
  simp

lemma splitParts_eq_map (ib : List BoneRec) (cs : List BoneRec)
    (h : ∀ c ∈ cs, collect_subtree ib c.name ≠ []) :
    (cs.map (fun b => b.name)).filterMap (fun r =>
      let s := collect_subtree ib r
      if s = [] then none else some (sort_by_index s)) =
    cs.map (fun c => sort_by_index (collect_subtree ib c.name)) := by
  induction cs with
  | nil => rfl
  | cons c t ih =>
    have hc := h c (by simp)
    simp only [List.map_cons, List.filterMap_cons, hc, ite_false]
    rw [ih (fun c' hc' => h c' (by simp [hc']))]

lemma split_roots_single (ib : List BoneRec) (r t : List Char) (cs : List BoneRec)
    (htop : toplvl_roots ib = [r])
    (hdesc : descend_to_first_branch ib (descend_fuel ib) r = t)
    (hch : children_of ib t = cs)
    (hne : cs ≠ []) :
    split_roots_of ib true = cs.map (fun b => b.name) := by
  unfold split_roots_of
  rw [htop]
  simp only [List.length_singleton, List.head?_cons, hdesc, hch]
  rw [if_neg (show ¬ (1 < 1) by decide), if_pos trivial, if_pos hne,
    if_neg (by simpa using hne)]

/-- C6: for a skeleton with exactly one top-level root, when splitting is
requested (with the split-by-children preference on) the assembler descends
single-child chains from the root to the first branch bone; when that bone
has at least two children, the produced armatures are exactly one
ArmatureGroup per child subtree (each in stable index order), plus the full
unsplit skeleton as an additional combined group, returned first — the
structure the skin binder targets. -/
theorem claim_C6_theorem :
    ∀ (bones : List BoneRec) (r t : List Char) (cs : List BoneRec),
    toplvl_roots (assign_indices bones) = [r] →
    descend_to_first_branch (assign_indices bones)
      (descend_fuel (assign_indices bones)) r = t →
    children_of (assign_indices bones) t = cs →
    2 ≤ cs.length →
    create_armature_groups bones true =
      sort_by_index (assign_indices bones) ::
        cs.map (fun c => sort_by_index (collect_subtree (assign_indices bones) c.name)) := by
  intro bones r t cs htop hdesc hch hlen
  have hne : cs ≠ [] := by
    intro hcs
    rw [hcs] at hlen
    simp at hlen
  simp only [create_armature_groups]
  rw [split_roots_single (assign_indices bones) r t cs htop hdesc hch hne]
  congr 1
  apply splitParts_eq_map
  intro c hc
  apply collect_subtree_ne_nil
  apply name_to_bone_isSome_of_mem
  rw [← hch] at hc
  exact (List.mem_filter.1 hc).1

/-- C6 witness: the spec scenario Root → Spine → ArmL, ArmR yields the
combined four-bone group first, then the ArmL and ArmR subtrees. -/
theorem claim_C6_witness :
    create_armature_groups c6_bones true =
      [[⟨("Root").data, [], 0⟩, ⟨("Spine").data, ("Root").data, 1⟩,
        ⟨("ArmL").data, ("Spine").data, 2⟩, ⟨("ArmR").data, ("Spine").data, 3⟩],
       [⟨("ArmL").data, ("Spine").data, 2⟩],
       [⟨("ArmR").data, ("Spine").data, 3⟩]] :=
  (claim_C6_theorem c6_bones (("Root").data) (("Spine").data)
    (children_of (assign_indices c6_bones) (("Spine").data))
    (by decide) (by decide) rfl (by decide)).trans (by decide)

end SROImport

namespace SROImport

lemma read_exact_ok {n : Nat} {r : ByteReader} {bs : List Nat} {r' : ByteReader}
    (h : read_exact n r = .ok (bs, r')) :
    bs = (r.buf.drop r.pos).take n ∧ r'.buf = r.buf ∧ bs.length = n := by
  simp only [read_exact, read_at_most] at h
  split_ifs at h with hl
  · simp only [Except.ok.injEq, Prod.mk.injEq] at h
    obtain ⟨h1, h2⟩ := h
    subst h1
    subst h2
    exact ⟨rfl, rfl, hl⟩

lemma read_u32_buf {r : ByteReader} {v : Nat} {r' : ByteReader}
    (h : read_u32 r = .ok (v, r')) : r'.buf = r.buf := by
  unfold read_u32 at h
  rcases hre : read_exact 4 r with e | p
  · rw [hre] at h
    simp at h
  · rw [hre] at h
    simp only [Except.ok.injEq, Prod.mk.injEq] at h
    obtain ⟨-, h2⟩ := h
    subst h2
    exact (read_exact_ok hre).2.1

lemma leNat_lt (l : List Nat) (h : ∀ b ∈ l, b < 256) : leNat l < 256 ^ l.length := by
  induction l with
  | nil => simp [leNat]
  | cons b t ih =>
    have hb := h b (by simp)
    have ht := ih (fun x hx => h x (by simp [hx]))
    simp only [leNat, List.length_cons]
    calc b + 256 * leNat t < 256 + 256 * leNat t := by omega
      _ = 256 * (leNat t + 1) := by ring
      _ ≤ 256 * 256 ^ t.length := Nat.mul_le_mul_left _ (by omega)
      _ = 256 ^ (t.length + 1) := by rw [pow_succ, Nat.mul_comm]

lemma read_faces_bound :
    ∀ (n : Nat) (r : ByteReader), (∀ b ∈ r.buf, b < 256) →
    ∀ (faces : List (Nat × Nat × Nat)) (r' : ByteReader),
      read_faces n r = .ok (faces, r') →
      (∀ f ∈ faces, f.1 < 65536 ∧ f.2.1 < 65536 ∧ f.2.2 < 65536) ∧ r'.buf = r.buf := by
  intro n
  induction n with
  | zero =>
    intro r hb faces r' h
    unfold read_faces at h
    simp only [Except.ok.injEq, Prod.mk.injEq] at h
    obtain ⟨h1, h2⟩ := h
    subst h1
    subst h2
    exact ⟨by simp, rfl⟩
  | succ m ih =>
    intro r hb faces r' h
    rw [read_faces] at h
    rcases hre : read_exact 6 r with e | ⟨bs, r1⟩
    · rw [hre] at h
      simp at h
    · rw [hre] at h
      dsimp only at h
      obtain ⟨hbs, hbuf1, hlen⟩ := read_exact_ok hre
      have hmem : ∀ b ∈ bs, b < 256 := by
        intro b hbmem
        refine hb b ?_
        rw [hbs] at hbmem
        exact List.mem_of_mem_drop (List.mem_of_mem_take hbmem)
      rcases hrf : read_faces m r1 with e | ⟨fs, r2⟩
      · rw [hrf] at h
        simp at h
      · rw [hrf] at h
        simp only [Except.ok.injEq, Prod.mk.injEq] at h
        obtain ⟨h1, h2⟩ := h
        subst h1
        subst h2
        have hb1 : ∀ b ∈ r1.buf, b < 256 := by rw [hbuf1]; exact hb
        obtain ⟨hfs, hbuf2⟩ := ih r1 hb1 fs r2 hrf
        refine ⟨?_, by rw [hbuf2, hbuf1]⟩
        intro f hf
        rcases List.mem_cons.1 hf with hf | hf
        · subst hf
          have e1 : (bs.take 2).length = 2 := by rw [List.length_take]; omega
          have e2 : ((bs.drop 2).take 2).length = 2 := by
            rw [List.length_take, List.length_drop]; omega
          have e3 : (bs.drop 4).length = 2 := by rw [List.length_drop]; omega
          have b1 := leNat_lt (bs.take 2) (fun x hx => hmem x (List.mem_of_mem_take hx))
          have b2 := leNat_lt ((bs.drop 2).take 2)
            (fun x hx => hmem x (List.mem_of_mem_drop (List.mem_of_mem_take hx)))
          have b3 := leNat_lt (bs.drop 4) (fun x hx => hmem x (List.mem_of_mem_drop hx))
          rw [e1] at b1
          rw [e2] at b2
          rw [e3] at b3
          exact ⟨by simpa using b1, by simpa using b2, by simpa using b3⟩
        · exact hfs f hf

end SROImport

namespace SROImport

lemma read_vertices_buf :
    ∀ (n flag : Nat) (r : ByteReader) (vs : List (ℚ × ℚ × ℚ)) (uvs : List (ℚ × ℚ))
      (sks : List SkinRecord) (r' : ByteReader),
    read_vertices flag n r = .ok (vs, uvs, sks, r') → r'.buf = r.buf := by
  intro n
  induction n with
  | zero =>
    intro flag r vs uvs sks r' h
    unfold read_vertices at h
    simp only [Except.ok.injEq, Prod.mk.injEq] at h
    obtain ⟨-, -, -, h4⟩ := h
    subst h4
    rfl
  | succ m ih =>
    intro flag r vs uvs sks r' h
    rw [read_vertices] at h
    rcases h12 : read_exact 12 r with e | ⟨pb, r1⟩ <;> rw [h12] at h
    · simp at h
    · dsimp only at h
      rcases h8 : read_exact 8 (read_at_most 12 r1).2 with e | ⟨ub, r3⟩ <;> rw [h8] at h
      · simp at h
      · dsimp only at h
        rcases h4 : read_exact 4 (read_at_most 4 r3).2 with e | ⟨ib, r5⟩ <;> rw [h4] at h
        · simp at h
        · dsimp only at h
          rcases h4b : read_exact 4 r5 with e | ⟨wb, r6⟩ <;> rw [h4b] at h
          · simp at h
          · dsimp only at h
            rcases hrec : read_vertices flag m
                (if flag &&& 2048 ≠ 0 then
                  (read_at_most 32 (if flag &&& 1024 ≠ 0 then (read_at_most 8 r6).2 else r6)).2
                else if flag &&& 1024 ≠ 0 then (read_at_most 8 r6).2 else r6)
              with e | ⟨vs2, uvs2, sks2, r9⟩ <;> rw [hrec] at h
            · simp at h
            · simp only [Except.ok.injEq, Prod.mk.injEq] at h
              obtain ⟨-, -, -, h4c⟩ := h
              subst h4c
              have hbuf9 := ih flag _ vs2 uvs2 sks2 r9 hrec
              have hb6 : r6.buf = r.buf := by
                have e1 := (read_exact_ok h12).2.1
                have e2 := (read_exact_ok h8).2.1
                have e3 := (read_exact_ok h4).2.1
                have e4 := (read_exact_ok h4b).2.1
                simp only [read_at_most] at e2 e3
                rw [e4, e3, e2, e1]
              rw [hbuf9]
              by_cases f1 : flag &&& 1024 ≠ 0 <;> by_cases f2 : flag &&& 2048 ≠ 0 <;>
                simp [f1, f2, read_at_most, hb6]

end SROImport

namespace SROImport

lemma import_bms_ok_faces {buf : List Nat} {md : MeshData}
    (hb : ∀ b ∈ buf, b < 256) (h : import_bms buf = .ok md) :
    ∀ f ∈ md.faces, f.1 < 65536 ∧ f.2.1 < 65536 ∧ f.2.2 < 65536 := by
  simp only [import_bms] at h
  split_ifs at h with hsig
  rcases h48 : read_exact 48 (read_at_most 8 (read_at_most 4 ⟨buf, 0⟩).2).2
    with e | ⟨header, r2⟩ <;> rw [h48] at h
  · simp at h
  · dsimp only at h
    rcases hu1 : read_u32 (read_at_most 4 r2).2 with e | ⟨vertex_flag, r4⟩ <;>
      rw [hu1] at h
    · simp at h
    · dsimp only at h
      rcases hu2 : read_u32 (read_at_most 4 r4).2 with e | ⟨name_len, r6⟩ <;>
        rw [hu2] at h
      · simp at h
      · dsimp only at h
        rcases hu3 : read_u32 (read_at_most name_len r6).2 with e | ⟨mat_len, r7⟩ <;>
          rw [hu3] at h
        · simp at h
        · dsimp only at h
          rcases hu4 : read_u32 (seek (leNat (List.take 4 header))
              (read_at_most mat_len r7).2) with e | ⟨vert_count, r8⟩ <;> rw [hu4] at h
          · simp at h
          · dsimp only at h
            rcases hrv : read_vertices vertex_flag vert_count r8
              with e | ⟨verts, uvs, skins, r9⟩ <;> rw [hrv] at h
            · simp at h
            · dsimp only at h
              rcases hu5 : read_u32 (seek (leNat (List.take 4 (List.drop 8 header))) r9)
                with e | ⟨face_count, r10⟩ <;> rw [hu5] at h
              · simp at h
              · dsimp only at h
                rcases hrf : read_faces face_count r10 with e | ⟨faces, rEnd⟩ <;>
                  rw [hrf] at h
                · simp at h
                · dsimp only at h
                  have hbuf : r10.buf = buf := by
                    have e2 := (read_exact_ok h48).2.1
                    have e4 := read_u32_buf hu1
                    have e6 := read_u32_buf hu2
                    have e7 := read_u32_buf hu3
                    have e8 := read_u32_buf hu4
                    have e9 := read_vertices_buf vert_count vertex_flag r8 verts uvs skins r9 hrv
                    have e10 := read_u32_buf hu5
                    simp only [read_at_most, seek] at e2 e4 e6 e7 e8 e10 ⊢
                    rw [e10, e9, e8, e7, e6, e4, e2]
                  have hb10 : ∀ b ∈ r10.buf, b < 256 := by rw [hbuf]; exact hb
                  obtain ⟨hfb, -⟩ := read_faces_bound face_count r10 hb10 faces rEnd hrf
                  have hmd : md.faces = faces := by
                    simp only [Except.ok.injEq] at h
                    rw [← h]
                  rw [hmd]
                  exact hfb

end SROImport

namespace SROImport

lemma c5_buf_eval : import_bms c5_buf = .ok c5_mesh := by
  with_unfolding_all decide

/-- C5 counterexample: `c5_buf` is a complete BMS buffer with one decoded
vertex whose single face references vertices 5, 6 and 7.  `import_bms`
decodes it successfully — no range check compares face indices against the
vertex count, so no `TruncatedInput`-class failure occurs. -/
theorem claim_C5_counterexample :
    import_bms c5_buf = .ok c5_mesh
    ∧ (5, 6, 7) ∈ c5_mesh.faces
    ∧ c5_mesh.vertices.length = 1
    ∧ ¬ 5 < c5_mesh.vertices.length :=
  ⟨c5_buf_eval, by decide, by decide, by decide⟩

/-- C5 amended: the decoder stores each face exactly as the three
little-endian u16 values parsed from the face block — every decoded face
index is below 65536, but it is never compared against the vertex count: a
face referencing an out-of-range vertex index decodes successfully (no
failure and no wrapping), as the one-vertex buffer with face (5, 6, 7)
shows. -/
theorem claim_C5_theorem :
    (∀ (buf : List Nat) (md : MeshData), (∀ b ∈ buf, b < 256) →
      import_bms buf = .ok md →
      ∀ f ∈ md.faces, f.1 < 65536 ∧ f.2.1 < 65536 ∧ f.2.2 < 65536)
    ∧ (import_bms c5_buf = .ok c5_mesh
      ∧ c5_mesh.vertices.length = 1
      ∧ c5_mesh.faces = [(5, 6, 7)]) :=
  ⟨fun _ _ hb h => import_bms_ok_faces hb h,
   c5_buf_eval, by decide, by decide⟩

set_option maxRecDepth 4000 in
/-- C5 witness: the u16 bound instantiated on the concrete buffer. -/
theorem claim_C5_witness :
    ∀ f ∈ c5_mesh.faces, f.1 < 65536 ∧ f.2.1 < 65536 ∧ f.2.2 < 65536 :=
  claim_C5_theorem.1 c5_buf c5_mesh (by decide) c5_buf_eval

end SROImport

namespace SROImport

lemma decode_bms_files_err_head {b : List Nat} {rest : List (List Nat)} {e : DecodeErr}
    (h : import_bms b = .error e) :
    decode_bms_files (b :: rest) = ([], some e) := by
  unfold decode_bms_files
  rw [h]

/-- C8 counterexample: with a valid skeleton file, a first mesh whose
signature is invalid, a sibling mesh that decodes fine on its own, and a
valid material file, the `InvalidSignature` raised for the first mesh
propagates to the top-level handler: the run is cancelled, the sibling mesh
is never decoded and the materials are never applied. -/
theorem claim_C8_counterexample :
    execute_import (some c8_bsk_good) [c8_bad_bms, c5_buf] (some c8_bmt_good) =
      ⟨true, [], false, true⟩
    ∧ import_bms c8_bad_bms = .error .invalidSignature
    ∧ import_bms c5_buf = .ok c5_mesh :=
  ⟨by with_unfolding_all decide, by decide, c5_buf_eval⟩

/-- C8 amended: an `InvalidSignature` failure is non-fatal only for the
skeleton container — `import_bsk` catches its own errors, so a bad skeleton
signature changes nothing else about the run.  An `InvalidSignature` from a
mesh or material container instead aborts the whole run: later meshes are
not decoded and materials are not applied. -/
theorem claim_C8_theorem :
    (∀ (bms : List (List Nat)) (bmt : Option (List Nat)),
      execute_import (some c8_bsk_bad) bms bmt = execute_import none bms bmt)
    ∧ (∀ (bsk : Option (List Nat)) (b : List Nat) (rest : List (List Nat))
        (bmt : List Nat) (e : DecodeErr), import_bms b = .error e →
      (execute_import bsk (b :: rest) (some bmt)).meshesDecoded = []
      ∧ (execute_import bsk (b :: rest) (some bmt)).materialsOk = false
      ∧ (execute_import bsk (b :: rest) (some bmt)).cancelled = true)
    ∧ (∀ (bsk : Option (List Nat)) (bms : List (List Nat)) (bmtB : List Nat),
      (decode_bms_files bms).2 = none →
      import_bmt_sig bmtB = .error .invalidSignature →
      (execute_import bsk bms (some bmtB)).materialsOk = false
      ∧ (execute_import bsk bms (some bmtB)).cancelled = true) := by
  refine ⟨?_, ?_, ?_⟩
  · intro bms bmt
    simp only [execute_import]
    rw [show (import_bsk_outcome c8_bsk_bad).isSome = false from by decide]
  · intro bsk b rest bmt e h
    simp only [execute_import, decode_bms_files_err_head h]
    exact ⟨trivial, trivial, trivial⟩
  · intro bsk bms bmtB hA hB
    simp only [execute_import, hA, hB]
    exact ⟨trivial, trivial⟩

/-- C8 witness: the three amended facts instantiated on concrete buffers. -/
theorem claim_C8_witness :
    execute_import (some c8_bsk_bad) [] (some c8_bmt_good) =
      execute_import none [] (some c8_bmt_good)
    ∧ ((execute_import (some c8_bsk_good) [c8_bad_bms] (some c8_bmt_good)).meshesDecoded = []
      ∧ (execute_import (some c8_bsk_good) [c8_bad_bms] (some c8_bmt_good)).materialsOk = false
      ∧ (execute_import (some c8_bsk_good) [c8_bad_bms] (some c8_bmt_good)).cancelled = true)
    ∧ ((execute_import (some c8_bsk_good) [] (some c8_bmt_bad)).materialsOk = false
      ∧ (execute_import (some c8_bsk_good) [] (some c8_bmt_bad)).cancelled = true) :=
  ⟨claim_C8_theorem.1 [] (some c8_bmt_good),
   claim_C8_theorem.2.1 (some c8_bsk_good) c8_bad_bms [] c8_bmt_good
     DecodeErr.invalidSignature (by decide),
   claim_C8_theorem.2.2 (some c8_bsk_good) [] c8_bmt_bad (by decide) (by decide)⟩

end SROImport
